import Mathlib

/-!
Verification of the impulse-based collision handling core of the myphysicslab
2D rigid-body engine, shallowly embedded from `src/lab/engine2D/ImpulseSim.js`
over exact rational arithmetic.  Bodies are compared structurally (with a
numeric identity field `bid`), modelling JavaScript reference equality under
the invariant that distinct bodies carry distinct identities.
-/

namespace ImpulseSimSpec

/-- 2D vector (the `x`/`y` accessors of `myphysicslab.lab.util.Vector`). -/
structure Vec where
  x : ℚ
  y : ℚ
deriving DecidableEq, Repr

/-- Planar scalar cross product `r x n = r.x*n.y - r.y*n.x`, as written inline
throughout `ImpulseSim.js`. -/
def crossZ (r n : Vec) : ℚ := r.x * n.y - r.y * n.x

/-- Dot product of two planar vectors. -/
def dotV (v w : Vec) : ℚ := v.x * w.x + v.y * w.y

/-- Rigid-body capabilities used by the collision core: a stable identity
`bid`, the mass (`none` models infinite mass, i.e. `isFinite(getMass())`
false), the moment of inertia about the center of mass, and the index of the
body's block of variables in the VarsList (`none` models
`getVarsIndex() == -1`). -/
structure Body where
  bid : ℕ
  mass : Option ℚ
  momentAboutCM : ℚ
  varsIndex : Option ℕ
deriving DecidableEq, Repr

/-- Contact descriptor: the fields of `RigidBodyCollision` read by
`ImpulseSim`.  The resting-contact predicate `contact()` of
`RigidBodyCollision` is not part of the sources under verification, so it is
carried as the boolean field `contact` of the descriptor (in the real engine
it is true for joints and for resting contacts). -/
structure Collision where
  primaryBody : Body
  normalBody : Body
  r1 : Vec
  r2 : Vec
  normal : Vec
  normalVelocity : ℚ
  elasticity : ℚ
  joint : Bool
  contact : Bool
deriving DecidableEq, Repr

/-- Final arithmetic of `ImpulseSim.prototype.influence`, once the offset
vectors `ri` (at collision `ci`) and `rj` (at collision `cj`), the sign
`factor`, the mass `m` and the moment of inertia `I` of the body have been
selected. -/
def influenceVal (ci cj : Collision) (m I : ℚ) (ri rj : Vec) (factor : ℚ) : ℚ :=
  factor * (
    ci.normal.x * (cj.normal.x / m
      - ri.y * (rj.x * cj.normal.y - rj.y * cj.normal.x) / I)
    + ci.normal.y * (cj.normal.y / m
      + ri.x * (rj.x * cj.normal.y - rj.y * cj.normal.x) / I))

/-- Second else-if chain of `ImpulseSim.prototype.influence`: select `rj` and
`factor` from the role of `body` in collision `cj` (0 when the body is not
involved in `cj`). -/
def influenceJ (ci cj : Collision) (body : Body) (m : ℚ) (ri : Vec) : ℚ :=
  if cj.primaryBody = body then influenceVal ci cj m body.momentAboutCM ri cj.r1 1
  else if cj.normalBody = body then influenceVal ci cj m body.momentAboutCM ri cj.r2 (-1)
  else 0

/-- `ImpulseSim.prototype.influence`: the change in relative normal velocity
at collision `ci` resulting from a unit impulse on the given body at collision
`cj`.  Returns 0 for an infinite-mass body and for a body not involved in one
of the two collisions. -/
def influence (ci cj : Collision) (body : Body) : ℚ :=
  match body.mass with
  | none => 0
  | some m =>
    if ci.primaryBody = body then influenceJ ci cj body m ci.r1
    else if ci.normalBody = body then influenceJ ci cj body m ci.r2
    else 0

/-- One entry of the matrix built by `ImpulseSim.prototype.makeCollisionMatrix`:
the entry starts at 0, `influence(ci, ck, ci.primaryBody)` is added and
`influence(ci, ck, ci.normalBody)` subtracted. -/
def collisionMatrixEntry (ci ck : Collision) : ℚ :=
  influence ci ck ci.primaryBody - influence ci ck ci.normalBody

/-- `ImpulseSim.prototype.makeCollisionMatrix` as a dense row-major list of
rows. -/
def makeCollisionMatrix (collisions : List Collision) : List (List ℚ) :=
  collisions.map (fun ci => collisions.map (fun ck => collisionMatrixEntry ci ck))

/-- Offset vector of `B` at contact `c` as selected by `influence` (r1 when
`B` is the primary body, r2 otherwise). -/
def sideR (c : Collision) (B : Body) : Vec :=
  if c.primaryBody = B then c.r1 else c.r2

/-- Sign with which a unit impulse at contact `c` acts on body `B` (+1 primary,
-1 normal body, 0 uninvolved). -/
def sideFactor (c : Collision) (B : Body) : ℚ :=
  if c.primaryBody = B then 1 else if c.normalBody = B then -1 else 0

/-- Whether body `B` is one of the two bodies of contact `c`. -/
def involvedIn (c : Collision) (B : Body) : Prop :=
  c.primaryBody = B ∨ c.normalBody = B

instance (c : Collision) (B : Body) : Decidable (involvedIn c B) := by
  unfold involvedIn
  infer_instance

/-- Symmetric kernel of the influence computation for a finite-mass body `B`
shared by contacts `ci` and `ck`. -/
def symTerm (ci ck : Collision) (B : Body) (m : ℚ) : ℚ :=
  dotV ci.normal ck.normal / m
    + crossZ (sideR ci B) ci.normal * crossZ (sideR ck B) ck.normal / B.momentAboutCM

/-- Symmetric kernel with the infinite-mass case folded in. -/
def symTermM (ci ck : Collision) (B : Body) : ℚ :=
  match B.mass with
  | none => 0
  | some m => symTerm ci ck B m

lemma symTerm_swap (ci ck : Collision) (B : Body) (m : ℚ) :
    symTerm ci ck B m = symTerm ck ci B m := by
  unfold symTerm dotV crossZ
  ring

lemma symTermM_swap (ci ck : Collision) (B : Body) :
    symTermM ci ck B = symTermM ck ci B := by
  unfold symTermM
  cases B.mass with
  | none => rfl
  | some m => exact symTerm_swap ci ck B m

lemma influence_mass_none (ci cj : Collision) (body : Body) (h : body.mass = none) :
    influence ci cj body = 0 := by
  unfold influence
  rw [h]

lemma influence_mass_some (ci cj : Collision) (body : Body) (m : ℚ)
    (h : body.mass = some m) :
    influence ci cj body =
      (if ci.primaryBody = body then influenceJ ci cj body m ci.r1
       else if ci.normalBody = body then influenceJ ci cj body m ci.r2
       else 0) := by
  unfold influence
  rw [h]

lemma symTermM_none (ci ck : Collision) (B : Body) (h : B.mass = none) :
    symTermM ci ck B = 0 := by
  unfold symTermM
  rw [h]

lemma symTermM_some (ci ck : Collision) (B : Body) (m : ℚ) (h : B.mass = some m) :
    symTermM ci ck B = symTerm ci ck B m := by
  unfold symTermM
  rw [h]

lemma influence_closed (ci ck : Collision) (B : Body)
    (hI : involvedIn ci B) :
    influence ci ck B = sideFactor ck B * symTermM ci ck B := by
  cases hm : B.mass with
  | none =>
    rw [influence_mass_none ci ck B hm, symTermM_none ci ck B hm]
    ring
  | some m =>
    rw [influence_mass_some ci ck B m hm, symTermM_some ci ck B m hm]
    by_cases hp : ci.primaryBody = B
    · rw [if_pos hp]
      unfold influenceJ sideFactor
      by_cases hq : ck.primaryBody = B
      · rw [if_pos hq, if_pos hq]
        unfold influenceVal symTerm sideR dotV crossZ
        rw [if_pos hp, if_pos hq]
        ring
      · rw [if_neg hq, if_neg hq]
        by_cases hr : ck.normalBody = B
        · rw [if_pos hr, if_pos hr]
          unfold influenceVal symTerm sideR dotV crossZ
          rw [if_pos hp, if_neg hq]
          ring
        · rw [if_neg hr, if_neg hr]
          ring
    · rw [if_neg hp]
      have hn : ci.normalBody = B := hI.resolve_left hp
      rw [if_pos hn]
      unfold influenceJ sideFactor
      by_cases hq : ck.primaryBody = B
      · rw [if_pos hq, if_pos hq]
        unfold influenceVal symTerm sideR dotV crossZ
        rw [if_neg hp, if_pos hq]
        ring
      · rw [if_neg hq, if_neg hq]
        by_cases hr : ck.normalBody = B
        · rw [if_pos hr, if_pos hr]
          unfold influenceVal symTerm sideR dotV crossZ
          rw [if_neg hp, if_neg hq]
          ring
        · rw [if_neg hr, if_neg hr]
          ring

lemma sideFactor_primary (c : Collision) (B : Body) (h : c.primaryBody = B) :
    sideFactor c B = 1 := by
  unfold sideFactor
  rw [if_pos h]

lemma sideFactor_normal (c : Collision) (B : Body) (h1 : c.primaryBody ≠ B)
    (h2 : c.normalBody = B) : sideFactor c B = -1 := by
  unfold sideFactor
  rw [if_neg h1, if_pos h2]

lemma sideFactor_uninvolved (c : Collision) (B : Body) (h1 : c.primaryBody ≠ B)
    (h2 : c.normalBody ≠ B) : sideFactor c B = 0 := by
  unfold sideFactor
  rw [if_neg h1, if_neg h2]

lemma collisionMatrixEntry_eq (ci ck : Collision) :
    collisionMatrixEntry ci ck
      = sideFactor ck ci.primaryBody * symTermM ci ck ci.primaryBody
        - sideFactor ck ci.normalBody * symTermM ci ck ci.normalBody := by
  unfold collisionMatrixEntry
  rw [influence_closed ci ck ci.primaryBody (Or.inl rfl),
    influence_closed ci ck ci.normalBody (Or.inr rfl)]

/-- Contribution of body `B` to the coupling of contacts `ci`, `ck`: sign of
`B` in each contact times the symmetric kernel. -/
def gFun (ci ck : Collision) (B : Body) : ℚ :=
  sideFactor ci B * sideFactor ck B * symTermM ci ck B

lemma gFun_zero_left (ci ck : Collision) (B : Body)
    (h1 : ci.primaryBody ≠ B) (h2 : ci.normalBody ≠ B) : gFun ci ck B = 0 := by
  unfold gFun
  rw [sideFactor_uninvolved ci B h1 h2]
  ring

lemma gFun_zero_right (ci ck : Collision) (B : Body)
    (h1 : ck.primaryBody ≠ B) (h2 : ck.normalBody ≠ B) : gFun ci ck B = 0 := by
  unfold gFun
  rw [sideFactor_uninvolved ck B h1 h2]
  ring

lemma collisionMatrixEntry_gFun (ci ck : Collision)
    (hi : ci.primaryBody ≠ ci.normalBody) :
    collisionMatrixEntry ci ck = gFun ci ck ci.primaryBody + gFun ci ck ci.normalBody := by
  rw [collisionMatrixEntry_eq ci ck]
  unfold gFun
  rw [sideFactor_primary ci ci.primaryBody rfl, sideFactor_normal ci ci.normalBody hi rfl]
  ring

lemma collisionMatrixEntry_symm (ci ck : Collision)
    (hi : ci.primaryBody ≠ ci.normalBody)
    (hk : ck.primaryBody ≠ ck.normalBody) :
    collisionMatrixEntry ci ck = collisionMatrixEntry ck ci := by
  have hswap : ∀ B : Body, gFun ck ci B = gFun ci ck B := by
    intro B
    unfold gFun
    rw [symTermM_swap ck ci B]
    ring
  rw [collisionMatrixEntry_gFun ci ck hi, collisionMatrixEntry_gFun ck ci hk,
    hswap ck.primaryBody, hswap ck.normalBody]
  by_cases e1 : ci.primaryBody = ck.primaryBody <;>
    by_cases e2 : ci.primaryBody = ck.normalBody <;>
    by_cases e3 : ci.normalBody = ck.primaryBody <;>
    by_cases e4 : ci.normalBody = ck.normalBody
  -- e1 e2 cases are impossible (ck would have equal bodies)
  · exact absurd (e1.symm.trans e2) hk
  · exact absurd (e1.symm.trans e2) hk
  · exact absurd (e1.symm.trans e2) hk
  · exact absurd (e1.symm.trans e2) hk
  -- e1 ¬e2 e3: ci would have equal bodies
  · exact absurd (e1.trans e3.symm) hi
  · exact absurd (e1.trans e3.symm) hi
  -- e1 ¬e2 ¬e3 e4: both bodies shared, same roles
  · rw [e1, e4]
  -- e1 only
  · rw [e1, gFun_zero_right ci ck ci.normalBody (fun h => e3 h.symm) (fun h => e4 h.symm),
      gFun_zero_left ci ck ck.normalBody (fun h => e2 h) (fun h => e4 h)]
  -- ¬e1 e2 e3 ¬e4 (e2 e3 e4 impossible via hi)
  · exact absurd (e2.trans e4.symm) hi
  · rw [e2, e3]
    ring
  -- ¬e1 e2 ¬e3 e4: ci's primary and normal both equal ck's normal
  · exact absurd (e2.trans e4.symm) hi
  -- e2 only
  · rw [e2, gFun_zero_right ci ck ci.normalBody (fun h => e3 h.symm) (fun h => e4 h.symm),
      gFun_zero_left ci ck ck.primaryBody (fun h => e1 h) (fun h => e3 h)]
    ring
  -- ¬e1 ¬e2 e3 e4: ck would have equal bodies
  · exact absurd (e3.symm.trans e4) hk
  -- e3 only
  · rw [e3, gFun_zero_right ci ck ci.primaryBody (fun h => e1 h.symm) (fun h => e2 h.symm),
      gFun_zero_left ci ck ck.normalBody (fun h => e2 h) (fun h => e4 h)]
    ring
  -- e4 only
  · rw [e4, gFun_zero_right ci ck ci.primaryBody (fun h => e1 h.symm) (fun h => e2 h.symm),
      gFun_zero_left ci ck ck.primaryBody (fun h => e1 h) (fun h => e3 h)]
  -- nothing shared
  · rw [gFun_zero_right ci ck ci.primaryBody (fun h => e1 h.symm) (fun h => e2 h.symm),
      gFun_zero_right ci ck ci.normalBody (fun h => e3 h.symm) (fun h => e4 h.symm),
      gFun_zero_left ci ck ck.primaryBody (fun h => e1 h) (fun h => e3 h),
      gFun_zero_left ci ck ck.normalBody (fun h => e2 h) (fun h => e4 h)]

lemma influenceJ_uninvolved (ci cj : Collision) (B : Body) (m : ℚ) (ri : Vec)
    (h : ¬involvedIn cj B) : influenceJ ci cj B m ri = 0 := by
  unfold involvedIn at h
  push_neg at h
  unfold influenceJ
  rw [if_neg h.1, if_neg h.2]

/-- C4: `influence(ci, cj, B)` returns 0 when `B` has infinite mass or when
`B` is not one of the two bodies of `ci` or of `cj`; otherwise it returns
`factor * (n_i.x*(n_j.x/m - r_i.y*(r_j x n_j)/I) + n_i.y*(n_j.y/m + r_i.x*(r_j x n_j)/I))`
where `r_i` is `ci.r1` if `B` is `ci.primaryBody` else `ci.r2` (likewise `r_j`
from `cj`), and `factor` is +1 if `B` is `cj.primaryBody` and -1 if it is
`cj.normalBody`. -/
theorem influence_formula (ci cj : Collision) (B : Body) :
    ((B.mass = none ∨ ¬involvedIn ci B ∨ ¬involvedIn cj B) → influence ci cj B = 0)
    ∧ (∀ m : ℚ, B.mass = some m → involvedIn ci B → involvedIn cj B →
        influence ci cj B =
          (if cj.primaryBody = B then (1 : ℚ) else -1) *
            (ci.normal.x * (cj.normal.x / m
              - (if ci.primaryBody = B then ci.r1 else ci.r2).y
                  * crossZ (if cj.primaryBody = B then cj.r1 else cj.r2) cj.normal
                  / B.momentAboutCM)
            + ci.normal.y * (cj.normal.y / m
              + (if ci.primaryBody = B then ci.r1 else ci.r2).x
                  * crossZ (if cj.primaryBody = B then cj.r1 else cj.r2) cj.normal
                  / B.momentAboutCM))) := by
  constructor
  · intro h
    rcases h with h | h | h
    · exact influence_mass_none ci cj B h
    · cases hm : B.mass with
      | none => exact influence_mass_none ci cj B hm
      | some m =>
        rw [influence_mass_some ci cj B m hm]
        unfold involvedIn at h
        push_neg at h
        rw [if_neg h.1, if_neg h.2]
    · cases hm : B.mass with
      | none => exact influence_mass_none ci cj B hm
      | some m =>
        rw [influence_mass_some ci cj B m hm]
        by_cases hp : ci.primaryBody = B
        · rw [if_pos hp]
          exact influenceJ_uninvolved ci cj B m ci.r1 h
        · rw [if_neg hp]
          by_cases hn : ci.normalBody = B
          · rw [if_pos hn]
            exact influenceJ_uninvolved ci cj B m ci.r2 h
          · rw [if_neg hn]
  · intro m hm hci hcj
    rw [influence_mass_some ci cj B m hm]
    by_cases hp : ci.primaryBody = B
    · simp only [if_pos hp]
      unfold influenceJ
      by_cases hq : cj.primaryBody = B
      · simp only [if_pos hq]
        unfold influenceVal crossZ
        ring
      · have hn : cj.normalBody = B := hcj.resolve_left hq
        simp only [if_neg hq, if_pos hn]
        unfold influenceVal crossZ
        ring
    · have hni : ci.normalBody = B := hci.resolve_left hp
      simp only [if_neg hp, if_pos hni]
      unfold influenceJ
      by_cases hq : cj.primaryBody = B
      · simp only [if_pos hq]
        unfold influenceVal crossZ
        ring
      · have hn : cj.normalBody = B := hcj.resolve_left hq
        simp only [if_neg hq, if_pos hn]
        unfold influenceVal crossZ
        ring

/-- C5: the matrix built by `makeCollisionMatrix` satisfies, over exact
rational arithmetic, `A[i][k] = A[k][i]` for every list of contacts in which
the two bodies of each contact are distinct (as the data model requires of
"the two involved bodies"). -/
theorem makeCollisionMatrix_symm (collisions : List Collision)
    (hd : ∀ c ∈ collisions, c.primaryBody ≠ c.normalBody)
    (i k : ℕ) (hi : i < collisions.length) (hk : k < collisions.length) :
    ((makeCollisionMatrix collisions).getD i []).getD k 0
      = ((makeCollisionMatrix collisions).getD k []).getD i 0 := by
  have entry : ∀ (a b : ℕ) (ha : a < collisions.length) (hb : b < collisions.length),
      ((makeCollisionMatrix collisions).getD a []).getD b 0
        = collisionMatrixEntry (collisions.get ⟨a, ha⟩) (collisions.get ⟨b, hb⟩) := by
    intro a b ha hb
    have h1 : (makeCollisionMatrix collisions).getD a []
        = List.map (fun ck => collisionMatrixEntry (collisions.get ⟨a, ha⟩) ck)
            collisions := by
      unfold makeCollisionMatrix
      rw [List.getD_eq_getElem _ _ (by simpa using ha)]
      simp only [List.getElem_map]
      rfl
    rw [h1, List.getD_eq_getElem _ _ (by simpa using hb)]
    simp only [List.getElem_map]
    rfl
  rw [entry i k hi hk, entry k i hk hi]
  exact collisionMatrixEntry_symm _ _
    (hd _ (collisions.get_mem i hi)) (hd _ (collisions.get_mem k hk))

/-- Finite-mass body used in concrete instances. -/
def bodyW1 : Body := ⟨0, some 2, 1, none⟩

/-- Second finite-mass body used in concrete instances. -/
def bodyW2 : Body := ⟨1, some 1, 3, none⟩

/-- Infinite-mass body used in concrete instances. -/
def bodyW3 : Body := ⟨2, none, 1, none⟩

/-- Concrete contact for the C4 witness. -/
def cW4i : Collision :=
  ⟨bodyW1, bodyW2, ⟨1, 2⟩, ⟨0, 0⟩, ⟨1, 0⟩, 0, 0, false, false⟩

/-- Second concrete contact for the C4 witness. -/
def cW4j : Collision :=
  ⟨bodyW1, bodyW2, ⟨3, 4⟩, ⟨0, 0⟩, ⟨0, 1⟩, 0, 0, false, false⟩

/-- Witness for C4 at a concrete input: the hypotheses hold and the formula
evaluates to -6 there. -/
theorem influence_formula_witness :
    (bodyW1.mass = some 2 ∧ involvedIn cW4i bodyW1 ∧ involvedIn cW4j bodyW1)
    ∧ influence cW4i cW4j bodyW1 = -6 := by
  refine ⟨⟨rfl, Or.inl rfl, Or.inl rfl⟩, ?_⟩
  have h := (influence_formula cW4i cW4j bodyW1).2 2 rfl (Or.inl rfl) (Or.inl rfl)
  rw [h]
  norm_num [cW4i, cW4j, bodyW1, bodyW2, crossZ]

/-- Concrete contact between bodyW1 and bodyW2 for the C5 witness. -/
def cW5a : Collision :=
  ⟨bodyW1, bodyW2, ⟨1, 0⟩, ⟨0, 1⟩, ⟨3/5, 4/5⟩, -1, 1, false, false⟩

/-- Concrete contact between bodyW2 and the infinite-mass bodyW3 for the C5
witness. -/
def cW5b : Collision :=
  ⟨bodyW2, bodyW3, ⟨2, 1⟩, ⟨1, 1⟩, ⟨0, 1⟩, -2, 1/2, false, false⟩

/-- Witness for C5 at a concrete two-contact list. -/
theorem makeCollisionMatrix_symm_witness :
    (∀ c ∈ [cW5a, cW5b], c.primaryBody ≠ c.normalBody)
    ∧ ((makeCollisionMatrix [cW5a, cW5b]).getD 0 []).getD 1 0
        = ((makeCollisionMatrix [cW5a, cW5b]).getD 1 []).getD 0 0 :=
  ⟨by decide, makeCollisionMatrix_symm [cW5a, cW5b] (by decide) 0 1 (by decide) (by decide)⟩

/-- Constant `ImpulseSim.TINY_IMPULSE = 1e-12`. -/
def TINY_IMPULSE : ℚ := 1 / 1000000000000

/-- Constant `ImpulseSim.SMALL_IMPULSE = 1e-4`. -/
def SMALL_IMPULSE : ℚ := 1 / 10000

/-- Modelled from the spec: slot of the horizontal velocity inside a body's
block of VarsList variables.  `RigidBodySim.VX_`, `VY_`, `VW_` live in
`RigidBodySim.js`, which is not among the sources; the collision core only
needs three distinct slots. -/
def VX_ : ℕ := 1

/-- Modelled from the spec: slot of the vertical velocity in a body's block. -/
def VY_ : ℕ := 3

/-- Modelled from the spec: slot of the angular velocity in a body's block. -/
def VW_ : ℕ := 5

/-- Velocity update of `applyImpulse` for one body of the collision: adds the
scaled normal to the linear velocity and the impulse torque to the angular
velocity (`sign` is +1 for the primary body, -1 for the normal body).  An
infinite-mass body (isFinite(m) false) and a body without a variables block
(getVarsIndex() == -1) are skipped. -/
def applyImpulseBody (body : Body) (normal r : Vec) (j sign : ℚ)
    (vars : List ℚ) : List ℚ :=
  match body.mass with
  | none => vars
  | some m =>
    match body.varsIndex with
    | none => vars
    | some offset =>
      let I := body.momentAboutCM
      let v1 := vars.set (VX_ + offset)
        (vars.getD (VX_ + offset) 0 + sign * (normal.x * j / m))
      let v2 := v1.set (VY_ + offset)
        (v1.getD (VY_ + offset) 0 + sign * (normal.y * j / m))
      v2.set (VW_ + offset)
        (v2.getD (VW_ + offset) 0 + sign * (j * (r.x * normal.y - r.y * normal.x) / I))

/-- `ImpulseSim.prototype.applyImpulse`: record the impulse on the collision
and mutate the velocity variables of the two involved bodies.  The returned
pair is (recorded impulse `cd.impulse`, updated vars); the error models
`throw new Error('negative impulse is impossible')`. -/
def applyImpulse (cd : Collision) (j : ℚ) (vars : List ℚ) :
    Except Unit (ℚ × List ℚ) :=
  if cd.joint = false ∧ j < 0 then
    if j < -TINY_IMPULSE then
      Except.error ()
    else
      -- tiny negative impulse is changed to zero; cd.impulse = 0 and the
      -- early return on j == 0 skips all velocity updates
      Except.ok (0, vars)
  else if j = 0 then
    Except.ok (0, vars)
  else
    let vars1 := applyImpulseBody cd.primaryBody cd.normal cd.r1 j 1 vars
    let vars2 := applyImpulseBody cd.normalBody cd.normal cd.r2 j (-1) vars1
    Except.ok (j, vars2)

/-- C7: `applyImpulse` raises an error iff the contact is unilateral and
`j < -TINY_IMPULSE`; when the contact is unilateral and
`-TINY_IMPULSE <= j < 0` the impulse is clamped: the recorded impulse is 0 and
no velocity variable changes. -/
theorem applyImpulse_negative (cd : Collision) (j : ℚ) (vars : List ℚ) :
    (applyImpulse cd j vars = Except.error () ↔ (cd.joint = false ∧ j < -TINY_IMPULSE))
    ∧ (cd.joint = false → -TINY_IMPULSE ≤ j → j < 0 →
        applyImpulse cd j vars = Except.ok (0, vars)) := by
  constructor
  · unfold applyImpulse
    by_cases hneg : cd.joint = false ∧ j < 0
    · rw [if_pos hneg]
      by_cases ht : j < -TINY_IMPULSE
      · rw [if_pos ht]
        exact ⟨fun _ => ⟨hneg.1, ht⟩, fun _ => rfl⟩
      · rw [if_neg ht]
        constructor
        · intro h
          exact absurd h (by simp)
        · intro h
          exact absurd h.2 ht
    · rw [if_neg hneg]
      constructor
      · intro h
        by_cases hz : j = 0
        · rw [if_pos hz] at h
          exact absurd h (by simp)
        · rw [if_neg hz] at h
          exact absurd h (by simp)
      · intro h
        refine absurd ⟨h.1, ?_⟩ hneg
        have := TINY_IMPULSE
        calc j < -TINY_IMPULSE := h.2
          _ < 0 := by norm_num [TINY_IMPULSE]
  · intro hj ht hneg
    unfold applyImpulse
    rw [if_pos ⟨hj, hneg⟩, if_neg (not_lt.mpr ht)]

/-- Witness for C7: a tiny negative impulse on a concrete unilateral contact
is clamped to zero and leaves the vars unchanged. -/
theorem applyImpulse_negative_witness :
    (cW4i.joint = false ∧ -TINY_IMPULSE ≤ -(TINY_IMPULSE / 2) ∧ -(TINY_IMPULSE / 2) < 0)
    ∧ applyImpulse cW4i (-(TINY_IMPULSE / 2)) [1, 2, 3]
        = Except.ok (0, [1, 2, 3]) :=
  ⟨⟨rfl, by norm_num [TINY_IMPULSE], by norm_num [TINY_IMPULSE]⟩,
    (applyImpulse_negative cW4i (-(TINY_IMPULSE / 2)) [1, 2, 3]).2 rfl
      (by norm_num [TINY_IMPULSE]) (by norm_num [TINY_IMPULSE])⟩

/-- Variable indices written by `applyImpulse` on behalf of one body: empty
for an infinite-mass body or one without a variables block. -/
def bodyWriteIdxs (body : Body) : List ℕ :=
  match body.mass with
  | none => []
  | some _ =>
    match body.varsIndex with
    | none => []
    | some offset => [VX_ + offset, VY_ + offset, VW_ + offset]

/-- Variable indices written by `applyImpulse` at a contact: the velocity
slots of its finite-mass bodies only. -/
def writeIdxs (c : Collision) : List ℕ :=
  bodyWriteIdxs c.primaryBody ++ bodyWriteIdxs c.normalBody

lemma getD_set_ne (l : List ℚ) (i j : ℕ) (x d : ℚ) (h : j ≠ i) :
    (l.set i x).getD j d = l.getD j d := by
  simp [List.getD, List.getElem?_set_ne (Ne.symm h)]

lemma applyImpulseBody_frame (body : Body) (normal r : Vec) (j sign : ℚ)
    (vars : List ℚ) (idx : ℕ) (h : idx ∉ bodyWriteIdxs body) :
    (applyImpulseBody body normal r j sign vars).getD idx 0 = vars.getD idx 0 := by
  unfold applyImpulseBody
  cases hm : body.mass with
  | none => rfl
  | some m =>
    cases hv : body.varsIndex with
    | none => rfl
    | some offset =>
      simp only [bodyWriteIdxs, hm, hv, List.mem_cons, List.not_mem_nil, or_false] at h
      push_neg at h
      obtain ⟨h1, h2, h3⟩ := h
      rw [getD_set_ne _ _ _ _ _ h3, getD_set_ne _ _ _ _ _ h2, getD_set_ne _ _ _ _ _ h1]

lemma applyImpulse_frame (cd : Collision) (j : ℚ) (vars : List ℚ) (imp : ℚ)
    (vars2 : List ℚ) (hok : applyImpulse cd j vars = Except.ok (imp, vars2))
    (idx : ℕ) (h : idx ∉ writeIdxs cd) :
    vars2.getD idx 0 = vars.getD idx 0 := by
  unfold writeIdxs at h
  rw [List.mem_append] at h
  push_neg at h
  unfold applyImpulse at hok
  by_cases hneg : cd.joint = false ∧ j < 0
  · rw [if_pos hneg] at hok
    by_cases ht : j < -TINY_IMPULSE
    · rw [if_pos ht] at hok
      exact absurd hok (by simp)
    · rw [if_neg ht] at hok
      simp only [Except.ok.injEq, Prod.mk.injEq] at hok
      rw [← hok.2]
  · rw [if_neg hneg] at hok
    by_cases hz : j = 0
    · rw [if_pos hz] at hok
      simp only [Except.ok.injEq, Prod.mk.injEq] at hok
      rw [← hok.2]
    · rw [if_neg hz] at hok
      simp only [Except.ok.injEq, Prod.mk.injEq] at hok
      rw [← hok.2]
      rw [applyImpulseBody_frame cd.normalBody cd.normal cd.r2 j (-1) _ idx h.2,
        applyImpulseBody_frame cd.primaryBody cd.normal cd.r1 j 1 vars idx h.1]

/-- The external LCP solver `ComputeForces.compute_forces` as a function of a
call counter and the inputs (A, b, joint flags), producing the impulse vector
written into the output argument and the returned error code (-1 on full
success).  `ComputeForces.js` is not among the sources under verification, so
the handlers are parameterised over it. -/
def SolverFn : Type :=
  ℕ → List (List ℚ) → List ℚ → List Bool → List ℚ × Int

/-- Elementwise sum of two vectors (`UtilEngine.vectorAdd`). -/
def vecAdd (xs ys : List ℚ) : List ℚ := List.zipWith (· + ·) xs ys

/-- Dot product of two vectors represented as lists. -/
def dotList (xs ys : List ℚ) : ℚ := (List.zipWith (· * ·) xs ys).sum

/-- Matrix times vector (`UtilEngine.matrixMultiply` with a column vector). -/
def matVec (A : List (List ℚ)) (v : List ℚ) : List ℚ :=
  A.map (fun row => dotList row v)

/-- Modelled from the spec: `ComputeForces.checkForceAccel` (ComputeForces.js
is not among the sources).  Verifies that the residual acceleration is within
the tolerance on joint rows and on rows whose force is positive. -/
def checkForceAccel (tol : ℚ) (j accel : List ℚ) (joint : List Bool) : Bool :=
  (List.range joint.length).all (fun i =>
    if joint.getD i false || decide (j.getD i 0 > 0) then
      decide (|accel.getD i 0| ≤ tol)
    else true)

/-- The right-hand-side vector built at the top of
`handleCollisionsSimultaneous`: `b[k] = ck.normalVelocity`, then multiplied by
1 when `ck.contact()` is true and by `1 + ck.getElasticity()` otherwise. -/
def simultaneousB (collisions : List Collision) : List ℚ :=
  collisions.map (fun ck =>
    ck.normalVelocity * (if ck.contact then 1 else 1 + ck.elasticity))

/-- Result of one top-level collision-handling call: the returned boolean and
the vars after the call, a thrown error (with the vars at the throw), or fuel
exhaustion of the model (the source serial loop is unbounded). -/
inductive HCResult where
  | ok (impulse : Bool) (vars : List ℚ)
  | thrown (vars : List ℚ)
  | fuelOut
deriving DecidableEq, Repr

/-- Final loop shared by both handlers: flag any impulse above
`TINY_IMPULSE`, then apply each impulse in order; an error from
`applyImpulse` carries the vars at the moment of the throw. -/
def applyLoop : List Collision → List ℚ → Bool → List ℚ →
    Except (List ℚ) (Bool × List ℚ)
  | [], _, impulse, vars => Except.ok (impulse, vars)
  | c :: cs, js, impulse, vars =>
    let j0 := js.getD 0 0
    let impulse1 := impulse || decide (j0 > TINY_IMPULSE)
    match applyImpulse c j0 vars with
    | Except.error _ => Except.error vars
    | Except.ok (_, vars1) => applyLoop cs (js.drop 1) impulse1 vars1

/-- `ImpulseSim.prototype.handleCollisionsSimultaneous`.  `debug` models
`goog.DEBUG`; on solver failure the residual check at tolerance 1e-4 runs
only in debug builds. -/
def handleCollisionsSimultaneous (debug : Bool) (solver : SolverFn)
    (collisions : List Collision) (vars : List ℚ) : HCResult :=
  let b := simultaneousB collisions
  let joint := collisions.map (fun ck => ck.joint)
  let A := makeCollisionMatrix collisions
  let res := solver 0 A b joint
  let j := res.1
  let error := res.2
  if debug = true ∧ error ≠ -1
      ∧ checkForceAccel (1/10000) j (vecAdd (matVec A j) b) joint = false then
    HCResult.thrown vars
  else
    match applyLoop collisions j false vars with
    | Except.error v => HCResult.thrown v
    | Except.ok (impulse, v) => HCResult.ok impulse v

/-- C2 (amended): in the simultaneous strategy the right-hand side entry is
`b[k] = normalVelocity * 1` when `ck.contact()` is true (which in the engine
holds for joints and for resting contacts) and
`b[k] = normalVelocity * (1 + elasticity)` otherwise; the joint flag alone
does not decide the factor. -/
theorem simultaneousB_entry (collisions : List Collision) (k : ℕ)
    (hk : k < collisions.length) :
    (simultaneousB collisions).getD k 0
      = (collisions.get ⟨k, hk⟩).normalVelocity
          * (if (collisions.get ⟨k, hk⟩).contact then 1
             else 1 + (collisions.get ⟨k, hk⟩).elasticity) := by
  unfold simultaneousB
  rw [List.getD_eq_getElem _ _ (by simpa using hk)]
  simp only [List.getElem_map]
  rfl

/-- Witness for the amended C2 at a concrete contact. -/
theorem simultaneousB_entry_witness :
    (0 < [cW5a].length)
    ∧ (simultaneousB [cW5a]).getD 0 0
        = cW5a.normalVelocity * (if cW5a.contact then 1 else 1 + cW5a.elasticity) :=
  ⟨by decide, simultaneousB_entry [cW5a] 0 (by decide)⟩

/-- Non-joint resting contact refuting C2 as stated: `contact()` is true, the
joint flag is false. -/
def cC2 : Collision :=
  ⟨bodyW1, bodyW2, ⟨0, 0⟩, ⟨0, 0⟩, ⟨1, 0⟩, -1, 1/2, false, true⟩

/-- Counterexample to C2 as stated: for a non-joint resting contact the
simultaneous right-hand side is `normalVelocity * 1`, not
`normalVelocity * (1 + elasticity)` as the claim requires for every non-joint
contact. -/
theorem simultaneousB_counterexample :
    cC2.joint = false
    ∧ (simultaneousB [cC2]).getD 0 0
        ≠ cC2.normalVelocity * (1 + cC2.elasticity) := by
  constructor
  · rfl
  · norm_num [simultaneousB, cC2]

/-- Absolute iteration ceiling `LOOP_LIMIT` of `handleCollisionsSerial`. -/
def LOOP_LIMIT : ℕ := 100000

/-- Record of one call to `compute_forces` inside the serial loop: the inputs
passed and the outputs received. -/
structure SolverCall where
  A1 : List (List ℚ)
  b1 : List ℚ
  joint1 : List Bool
  j1 : List ℚ
  error : Int
deriving DecidableEq, Repr

/-- Mutable state of the do-while loop of `handleCollisionsSerial`: the
velocity vector `b`, the cumulative impulses `j2`, the current
`small_velocity` tolerance (doubled by panic relaxation), the next panic
threshold, the loop counter, the debug-ceiling diagnostic flag, and the
record of solver calls made so far. -/
structure SerialState where
  b : List ℚ
  j2 : List ℚ
  sv : ℚ
  loopPanic : ℕ
  loopCtr : ℕ
  diag : Bool
  trace : List SolverCall
deriving DecidableEq, Repr

/-- Outcome of the serial loop: normal exit, exception from the residual
check, or fuel exhaustion (the source loop is unbounded). -/
inductive SerialOutcome where
  | ok (s : SerialState)
  | err (s : SerialState)
  | fuelOut (s : SerialState)
deriving DecidableEq, Repr

/-- State carried by a serial-loop outcome. -/
def SerialOutcome.state : SerialOutcome → SerialState
  | SerialOutcome.ok s => s
  | SerialOutcome.err s => s
  | SerialOutcome.fuelOut s => s

/-- Whether the serial loop ran out of fuel. -/
def SerialOutcome.isFuelOut : SerialOutcome → Bool
  | SerialOutcome.fuelOut _ => true
  | _ => false

/-- `ImpulseSim.prototype.hcs_focus`: first index in the random ordering
whose velocity is large (non-joint: `b < -small_velocity`; joint:
`|b| > small_velocity`); `none` models `focus == -1`. -/
def hcs_focus (small_velocity : ℚ) (joint : List Bool) (b : List ℚ)
    (indices : List ℕ) : Option ℕ :=
  indices.find? (fun j =>
    (!joint.getD j false && decide (b.getD j 0 < -small_velocity))
    || (joint.getD j false && decide (|b.getD j 0| > small_velocity)))

/-- Subset selection of `hcs_handle`: every contact during the final pass
(`focus == -1`), the joint-connected subset for hybrid/grouped handling
(computed by `UtilityCollision.subsetCollisions2`, which is not among the
sources and is therefore a parameter `subsetFn` giving the selected indices),
and the focus alone otherwise. -/
def hcs_set (hybrid grouped : Bool) (subsetFn : ℕ → List ℚ → ℚ → List ℕ)
    (n : ℕ) (focus : Option ℕ) (b : List ℚ) (sv : ℚ) : List Bool :=
  match focus with
  | none => List.replicate n true
  | some f =>
    if hybrid || grouped then
      let subset := subsetFn f b (-sv)
      (List.range n).map (fun k => decide (k ∈ subset))
    else
      (List.range n).map (fun k => decide (k = f))

/-- Positions selected by the boolean set, in increasing order (the `idx2`
array of `hcs_handle`; `idx` is its rank function). -/
def setPositions (set : List Bool) (n : ℕ) : List ℕ :=
  (List.range n).filter (fun k => set.getD k false)

/-- Restriction of a vector to the selected positions. -/
def subVector (v : List ℚ) (idx2 : List ℕ) : List ℚ :=
  idx2.map (fun i => v.getD i 0)

/-- Restriction of the joint flags to the selected positions. -/
def subBools (joint : List Bool) (idx2 : List ℕ) : List Bool :=
  idx2.map (fun i => joint.getD i false)

/-- Principal submatrix on the selected positions. -/
def subMatrix (A : List (List ℚ)) (idx2 : List ℕ) : List (List ℚ) :=
  idx2.map (fun i => subVector (A.getD i []) idx2)

/-- Add `x` into component `i` of a vector. -/
def addAt (v : List ℚ) (i : ℕ) (x : ℚ) : List ℚ := v.set i (v.getD i 0 + x)

/-- The `j2[idx2[i]] += j1[i]` loop of `hcs_handle`. -/
def updateJ2 (idx2 : List ℕ) (j1 j2 : List ℚ) : List ℚ :=
  (idx2.zip j1).foldl (fun acc p => addAt acc p.1 p.2) j2

/-- The `b[i] += sum over selected j of A[i][j]*j1[idx[j]]` loop of
`hcs_handle`. -/
def updateB (A : List (List ℚ)) (idx2 : List ℕ) (j1 b : List ℚ) : List ℚ :=
  List.zipWith (fun bi row => bi + dotList (subVector row idx2) j1) b A

/-- `ImpulseSim.prototype.hcs_handle`: build the subset containing the focus,
solve it, and update the cumulative impulses and contact velocities.  Returns
`none` for the throw taken when the solver reports failure and the residual
check at tolerance 1e-4 fails. -/
def hcs_handle (hybrid grouped : Bool)
    (subsetFn : ℕ → List ℚ → ℚ → List ℕ) (solver : SolverFn)
    (e : List ℚ) (joint : List Bool) (A : List (List ℚ)) (n : ℕ)
    (focus : Option ℕ) (s : SerialState) : Option SerialState :=
  let set := hcs_set hybrid grouped subsetFn n focus s.b s.sv
  let idx2 := setPositions set n
  let b1 := subVector s.b idx2
  let joint1 := subBools joint idx2
  let A1 := subMatrix A idx2
  -- when focus == -1 (final pass) b1 is left as is: elasticity 0;
  -- otherwise each entry is scaled by 1 + e[idx2[k]]
  let b1s := match focus with
    | none => b1
    | some _ => List.zipWith (fun bk i => bk * (1 + e.getD i 0)) b1 idx2
  let res := solver s.loopCtr A1 b1s joint1
  let j1 := res.1
  let error := res.2
  if error ≠ -1
      ∧ checkForceAccel (1/10000) j1 (vecAdd (matVec A1 j1) b1s) joint1 = false then
    none
  else
    some { s with
      b := updateB A idx2 j1 s.b
      j2 := updateJ2 idx2 j1 s.j2
      trace := s.trace ++ [SolverCall.mk A1 b1s joint1 j1 error] }

/-- Head of each serial-loop iteration: increment the loop counter, apply
panic relaxation (double the tolerance every `PANIC_LIMIT = 20*n` iterations
when enabled), and in debug builds set the diagnostic flag once the counter
exceeds the absolute ceiling `LOOP_LIMIT`. -/
def serialTick (doPanic debug : Bool) (n : ℕ) (s : SerialState) : SerialState :=
  let c1 := s.loopCtr + 1
  let panic := doPanic && decide (c1 > s.loopPanic)
  { s with
    sv := if panic then s.sv * 2 else s.sv
    loopPanic := if panic then s.loopPanic + 20 * n else s.loopPanic
    loopCtr := c1
    diag := s.diag || (debug && decide (c1 > LOOP_LIMIT)) }

/-- The do-while loop of `handleCollisionsSerial`, with explicit fuel (the
source loop is unbounded).  `perm` models the fresh random ordering
`simRNG_.randomInts(n)` drawn each iteration; `e`, `joint` and `A` are the
loop constants computed in the prologue; `debug` models `goog.DEBUG`. -/
def serialLoop (debug hybrid grouped lastPass doPanic : Bool)
    (subsetFn : ℕ → List ℚ → ℚ → List ℕ) (solver : SolverFn)
    (perm : ℕ → List ℕ) (e : List ℚ) (joint : List Bool)
    (A : List (List ℚ)) (n : ℕ) : ℕ → SerialState → SerialOutcome
  | 0, s => SerialOutcome.fuelOut s
  | fuel + 1, s =>
    let s1 := serialTick doPanic debug n s
    let focus := hcs_focus s1.sv joint s1.b (perm s1.loopCtr)
    if focus = none ∧ lastPass = false then
      SerialOutcome.ok s1
    else
      match hcs_handle hybrid grouped subsetFn solver e joint A n focus s1 with
      | none => SerialOutcome.err s1
      | some s2 =>
        match focus with
        | none => SerialOutcome.ok s2
        | some _ =>
          serialLoop debug hybrid grouped lastPass doPanic subsetFn solver perm
            e joint A n fuel s2

/-- Elasticity vector built in the prologue of `handleCollisionsSerial`:
inelastic joints when grouped, the contact's elasticity otherwise. -/
def serialE (grouped : Bool) (collisions : List Collision) : List ℚ :=
  collisions.map (fun ck =>
    if grouped then (if ck.joint then 0 else ck.elasticity) else ck.elasticity)

/-- Joint flags of the contact list. -/
def serialJoint (collisions : List Collision) : List Bool :=
  collisions.map (fun ck => ck.joint)

/-- Initial loop state of `handleCollisionsSerial`: `b` holds the recorded
normal velocities, `j2` is zero, the panic threshold is `PANIC_LIMIT = 20*n`. -/
def serialInit (collisions : List Collision) (small_velocity : ℚ) : SerialState :=
  SerialState.mk (collisions.map (fun ck => ck.normalVelocity))
    (List.replicate collisions.length 0) small_velocity
    (20 * collisions.length) 0 false []

/-- Result of `handleCollisionsSerial`: the returned boolean, the cumulative
impulses and the vars after the final application; or a throw (with the vars
at the throw); or fuel exhaustion of the model. -/
inductive SerialResult where
  | ok (impulse : Bool) (j2 : List ℚ) (vars : List ℚ)
  | thrown (vars : List ℚ)
  | fuelOut
deriving DecidableEq, Repr

/-- `ImpulseSim.prototype.handleCollisionsSerial`: resolve the JS default
arguments (`grouped`/`lastPass` default true, `small_velocity || 0.00001`,
`doPanic` default true), build the loop constants, run the loop, then apply
the cumulative impulses once per contact and report whether any impulse
exceeded `TINY_IMPULSE`. -/
def handleCollisionsSerial (debug : Bool) (solver : SolverFn)
    (subsetFn : ℕ → List ℚ → ℚ → List ℕ) (perm : ℕ → List ℕ)
    (collisions : List Collision) (hybrid : Bool)
    (groupedOpt lastPassOpt : Option Bool) (svOpt : Option ℚ)
    (doPanicOpt : Option Bool) (fuel : ℕ) (vars : List ℚ) : SerialResult :=
  let grouped := groupedOpt.getD true
  let lastPass := lastPassOpt.getD true
  let small_velocity := match svOpt with
    | none => 1/100000
    | some v => if v = 0 then 1/100000 else v
  let doPanic := doPanicOpt.getD true
  let n := collisions.length
  let joint := serialJoint collisions
  let e := serialE grouped collisions
  let A := makeCollisionMatrix collisions
  match serialLoop debug hybrid grouped lastPass doPanic subsetFn solver perm
      e joint A n fuel (serialInit collisions small_velocity) with
  | SerialOutcome.fuelOut _ => SerialResult.fuelOut
  | SerialOutcome.err _ => SerialResult.thrown vars
  | SerialOutcome.ok s =>
    match applyLoop collisions s.j2 false vars with
    | Except.error v => SerialResult.thrown v
    | Except.ok (impulse, v) => SerialResult.ok impulse s.j2 v

/-- The six collision handling strategies (`CollisionHandling` enum). -/
inductive Strategy where
  | simultaneous
  | hybrid
  | serialSeparate
  | serialGrouped
  | serialSeparateLastPass
  | serialGroupedLastPass
deriving DecidableEq, Repr

/-- Forget the cumulative-impulse component of a serial result. -/
def SerialResult.toHCResult : SerialResult → HCResult
  | SerialResult.ok impulse _ vars => HCResult.ok impulse vars
  | SerialResult.thrown vars => HCResult.thrown vars
  | SerialResult.fuelOut => HCResult.fuelOut

/-- `ImpulseSim.prototype.handleCollisions`: throw on an empty contact list,
then dispatch on the strategy with the argument patterns of the source
(`hybrid` passes grouped/lastPass as undefined, hence defaulting to true). -/
def handleCollisions (strategy : Strategy) (debug : Bool) (solver : SolverFn)
    (subsetFn : ℕ → List ℚ → ℚ → List ℕ) (perm : ℕ → List ℕ)
    (collisions : List Collision) (fuel : ℕ) (vars : List ℚ) : HCResult :=
  if collisions.length = 0 then
    HCResult.thrown vars
  else
    match strategy with
    | Strategy.simultaneous =>
      handleCollisionsSimultaneous debug solver collisions vars
    | Strategy.hybrid =>
      (handleCollisionsSerial debug solver subsetFn perm collisions true
        none none none none fuel vars).toHCResult
    | Strategy.serialSeparate =>
      (handleCollisionsSerial debug solver subsetFn perm collisions false
        (some false) (some false) none none fuel vars).toHCResult
    | Strategy.serialGrouped =>
      (handleCollisionsSerial debug solver subsetFn perm collisions false
        (some true) (some false) none none fuel vars).toHCResult
    | Strategy.serialSeparateLastPass =>
      (handleCollisionsSerial debug solver subsetFn perm collisions false
        (some false) (some true) none none fuel vars).toHCResult
    | Strategy.serialGroupedLastPass =>
      (handleCollisionsSerial debug solver subsetFn perm collisions false
        (some true) (some true) none none fuel vars).toHCResult

/-- C10: a call to `handleCollisions` with an empty contact list throws
before any strategy is dispatched, for every strategy, solver and state; the
thrown result carries the unmodified vars, so no body velocity is modified. -/
theorem handleCollisions_empty (strategy : Strategy) (debug : Bool)
    (solver : SolverFn) (subsetFn : ℕ → List ℚ → ℚ → List ℕ)
    (perm : ℕ → List ℕ) (fuel : ℕ) (vars : List ℚ) :
    handleCollisions strategy debug solver subsetFn perm [] fuel vars
      = HCResult.thrown vars := by
  unfold handleCollisions
  rfl

/-- C9: `handleCollisions` is deterministic.  The embedding is a pure
function of the strategy, the contact list, the body/velocity state, the
fuel, and the RNG-seed-determined data (permutation stream, solver and debug
flag); two runs on equal inputs produce equal outputs. -/
theorem handleCollisions_deterministic (strategy strategy' : Strategy)
    (debug debug' : Bool) (solver solver' : SolverFn)
    (subsetFn subsetFn' : ℕ → List ℚ → ℚ → List ℕ)
    (perm perm' : ℕ → List ℕ) (collisions collisions' : List Collision)
    (fuel fuel' : ℕ) (vars vars' : List ℚ)
    (h1 : strategy = strategy') (h2 : debug = debug') (h3 : solver = solver')
    (h4 : subsetFn = subsetFn') (h5 : perm = perm')
    (h6 : collisions = collisions') (h7 : fuel = fuel') (h8 : vars = vars') :
    handleCollisions strategy debug solver subsetFn perm collisions fuel vars
      = handleCollisions strategy' debug' solver' subsetFn' perm' collisions'
          fuel' vars' := by
  subst h1 h2 h3 h4 h5 h6 h7 h8
  rfl

/-- Witness for C9 at concrete equal inputs. -/
theorem handleCollisions_deterministic_witness :
    handleCollisions Strategy.simultaneous false (fun _ _ _ _ => ([], -1))
        (fun _ _ _ => []) (fun _ => []) [cC2] 1 [0]
      = handleCollisions Strategy.simultaneous false (fun _ _ _ _ => ([], -1))
          (fun _ _ _ => []) (fun _ => []) [cC2] 1 [0] :=
  handleCollisions_deterministic Strategy.simultaneous Strategy.simultaneous
    false false (fun _ _ _ _ => ([], -1)) (fun _ _ _ _ => ([], -1))
    (fun _ _ _ => []) (fun _ _ _ => []) (fun _ => []) (fun _ => [])
    [cC2] [cC2] 1 1 [0] [0] rfl rfl rfl rfl rfl rfl rfl rfl

lemma applyLoop_frame (cs : List Collision) (js : List ℚ) (imp0 : Bool)
    (vars : List ℚ) (idx : ℕ) (h : ∀ c ∈ cs, idx ∉ writeIdxs c) :
    (∀ b v, applyLoop cs js imp0 vars = Except.ok (b, v) →
        v.getD idx 0 = vars.getD idx 0)
    ∧ (∀ v, applyLoop cs js imp0 vars = Except.error v →
        v.getD idx 0 = vars.getD idx 0) := by
  induction cs generalizing js imp0 vars with
  | nil =>
    constructor
    · intro b v hok
      simp only [applyLoop, Except.ok.injEq, Prod.mk.injEq] at hok
      rw [← hok.2]
    · intro v herr
      simp only [applyLoop] at herr
      exact Except.noConfusion herr
  | cons c cs ih =>
    constructor
    · intro b v hok
      simp only [applyLoop] at hok
      cases happ : applyImpulse c (js.getD 0 0) vars with
      | error u =>
        rw [happ] at hok
        simp at hok
      | ok p =>
        rw [happ] at hok
        obtain ⟨i0, vars1⟩ := p
        simp only at hok
        have step := applyImpulse_frame c (js.getD 0 0) vars i0 vars1 happ idx
          (h c (by simp))
        have rest := (ih (js.drop 1) _ vars1 (fun c' hc' => h c' (by simp [hc']))).1
          b v hok
        rw [rest, step]
    · intro v herr
      simp only [applyLoop] at herr
      cases happ : applyImpulse c (js.getD 0 0) vars with
      | error u =>
        rw [happ] at herr
        simp only [Except.error.injEq] at herr
        rw [← herr]
      | ok p =>
        rw [happ] at herr
        obtain ⟨i0, vars1⟩ := p
        simp only at herr
        have step := applyImpulse_frame c (js.getD 0 0) vars i0 vars1 happ idx
          (h c (by simp))
        have rest := (ih (js.drop 1) _ vars1 (fun c' hc' => h c' (by simp [hc']))).2
          v herr
        rw [rest, step]

/-- The three velocity-variable indices of a body's block (empty when the
body has no block in the VarsList). -/
def bodyVarIdxs (B : Body) : List ℕ :=
  match B.varsIndex with
  | none => []
  | some off => [VX_ + off, VY_ + off, VW_ + off]

lemma handleCollisionsSimultaneous_frame (debug : Bool) (solver : SolverFn)
    (collisions : List Collision) (vars : List ℚ) (idx : ℕ)
    (h : ∀ c ∈ collisions, idx ∉ writeIdxs c) :
    (∀ imp v, handleCollisionsSimultaneous debug solver collisions vars
        = HCResult.ok imp v → v.getD idx 0 = vars.getD idx 0)
    ∧ (∀ v, handleCollisionsSimultaneous debug solver collisions vars
        = HCResult.thrown v → v.getD idx 0 = vars.getD idx 0) := by
  unfold handleCollisionsSimultaneous
  set j := (solver 0 (makeCollisionMatrix collisions) (simultaneousB collisions)
    (collisions.map fun ck => ck.joint)).1 with hj
  by_cases hcond : debug = true
      ∧ (solver 0 (makeCollisionMatrix collisions) (simultaneousB collisions)
          (collisions.map fun ck => ck.joint)).2 ≠ -1
      ∧ checkForceAccel (1/10000) j
          (vecAdd (matVec (makeCollisionMatrix collisions) j)
            (simultaneousB collisions))
          (collisions.map fun ck => ck.joint) = false
  · rw [if_pos hcond]
    constructor
    · intro imp v hok
      simp at hok
    · intro v hthr
      simp only [HCResult.thrown.injEq] at hthr
      rw [← hthr]
  · rw [if_neg hcond]
    constructor
    · intro imp v hok
      cases happ : applyLoop collisions j false vars with
      | error u =>
        rw [happ] at hok
        simp at hok
      | ok p =>
        rw [happ] at hok
        obtain ⟨b0, v0⟩ := p
        simp only [HCResult.ok.injEq] at hok
        obtain ⟨hb, hv⟩ := hok
        rw [← hv]
        exact (applyLoop_frame collisions j false vars idx h).1 b0 v0 happ
    · intro v hthr
      cases happ : applyLoop collisions j false vars with
      | error u =>
        rw [happ] at hthr
        simp only [HCResult.thrown.injEq] at hthr
        rw [← hthr]
        exact (applyLoop_frame collisions j false vars idx h).2 u happ
      | ok p =>
        rw [happ] at hthr
        obtain ⟨b0, v0⟩ := p
        simp at hthr

lemma handleCollisionsSerial_frame (debug : Bool) (solver : SolverFn)
    (subsetFn : ℕ → List ℚ → ℚ → List ℕ) (perm : ℕ → List ℕ)
    (collisions : List Collision) (hybrid : Bool)
    (groupedOpt lastPassOpt : Option Bool) (svOpt : Option ℚ)
    (doPanicOpt : Option Bool) (fuel : ℕ) (vars : List ℚ) (idx : ℕ)
    (h : ∀ c ∈ collisions, idx ∉ writeIdxs c) :
    (∀ imp j2 v, handleCollisionsSerial debug solver subsetFn perm collisions
        hybrid groupedOpt lastPassOpt svOpt doPanicOpt fuel vars
        = SerialResult.ok imp j2 v → v.getD idx 0 = vars.getD idx 0)
    ∧ (∀ v, handleCollisionsSerial debug solver subsetFn perm collisions
        hybrid groupedOpt lastPassOpt svOpt doPanicOpt fuel vars
        = SerialResult.thrown v → v.getD idx 0 = vars.getD idx 0) := by
  simp only [handleCollisionsSerial]
  cases hloop : serialLoop debug hybrid (groupedOpt.getD true)
      (lastPassOpt.getD true) (doPanicOpt.getD true) subsetFn solver perm
      (serialE (groupedOpt.getD true) collisions) (serialJoint collisions)
      (makeCollisionMatrix collisions) collisions.length fuel
      (serialInit collisions
        (match svOpt with
          | none => 1/100000
          | some v => if v = 0 then 1/100000 else v)) with
  | fuelOut s =>
    exact ⟨fun imp j2 v hok => by simp at hok, fun v hthr => by simp at hthr⟩
  | err s =>
    refine ⟨fun imp j2 v hok => by simp at hok, fun v hthr => ?_⟩
    dsimp only at hthr
    simp only [SerialResult.thrown.injEq] at hthr
    rw [← hthr]
  | ok s =>
    dsimp only
    constructor
    · intro imp j2 v hok
      cases happ : applyLoop collisions s.j2 false vars with
      | error u =>
        rw [happ] at hok
        simp at hok
      | ok p =>
        rw [happ] at hok
        obtain ⟨b0, v0⟩ := p
        simp only [SerialResult.ok.injEq] at hok
        rw [← hok.2.2]
        exact (applyLoop_frame collisions s.j2 false vars idx h).1 b0 v0 happ
    · intro v hthr
      cases happ : applyLoop collisions s.j2 false vars with
      | error u =>
        rw [happ] at hthr
        simp only [SerialResult.thrown.injEq] at hthr
        rw [← hthr]
        exact (applyLoop_frame collisions s.j2 false vars idx h).2 u happ
      | ok p =>
        rw [happ] at hthr
        obtain ⟨b0, v0⟩ := p
        simp at hthr

lemma handleCollisionsSerial_toHC_frame (debug : Bool) (solver : SolverFn)
    (subsetFn : ℕ → List ℚ → ℚ → List ℕ) (perm : ℕ → List ℕ)
    (collisions : List Collision) (hybrid : Bool)
    (groupedOpt lastPassOpt : Option Bool) (svOpt : Option ℚ)
    (doPanicOpt : Option Bool) (fuel : ℕ) (vars : List ℚ) (idx : ℕ)
    (h : ∀ c ∈ collisions, idx ∉ writeIdxs c) :
    (∀ imp v, (handleCollisionsSerial debug solver subsetFn perm collisions
        hybrid groupedOpt lastPassOpt svOpt doPanicOpt fuel vars).toHCResult
        = HCResult.ok imp v → v.getD idx 0 = vars.getD idx 0)
    ∧ (∀ v, (handleCollisionsSerial debug solver subsetFn perm collisions
        hybrid groupedOpt lastPassOpt svOpt doPanicOpt fuel vars).toHCResult
        = HCResult.thrown v → v.getD idx 0 = vars.getD idx 0) := by
  cases hser : handleCollisionsSerial debug solver subsetFn perm collisions
      hybrid groupedOpt lastPassOpt svOpt doPanicOpt fuel vars with
  | ok imp' j2' v' =>
    refine ⟨fun imp v hok => ?_, fun v hthr => ?_⟩
    · simp only [SerialResult.toHCResult, HCResult.ok.injEq] at hok
      rw [← hok.2]
      exact (handleCollisionsSerial_frame debug solver subsetFn perm collisions
        hybrid groupedOpt lastPassOpt svOpt doPanicOpt fuel vars idx h).1
        imp' j2' v' hser
    · simp [SerialResult.toHCResult] at hthr
  | thrown v' =>
    refine ⟨fun imp v hok => by simp [SerialResult.toHCResult] at hok,
      fun v hthr => ?_⟩
    simp only [SerialResult.toHCResult, HCResult.thrown.injEq] at hthr
    rw [← hthr]
    exact (handleCollisionsSerial_frame debug solver subsetFn perm collisions
      hybrid groupedOpt lastPassOpt svOpt doPanicOpt fuel vars idx h).2 v' hser
  | fuelOut =>
    exact ⟨fun imp v hok => by simp [SerialResult.toHCResult] at hok,
      fun v hthr => by simp [SerialResult.toHCResult] at hthr⟩

/-- C6: for every call to `handleCollisions` (any strategy), the velocity
variables of an infinite-mass body `B` are unchanged, whether the call
returns normally or throws.  `applyImpulse` only writes the velocity slots of
finite-mass bodies (`writeIdxs` is empty for an infinite-mass body), so it
suffices that no finite-mass body of a handled contact shares `B`'s variable
block. -/
theorem handleCollisions_infiniteMass (strategy : Strategy) (debug : Bool)
    (solver : SolverFn) (subsetFn : ℕ → List ℚ → ℚ → List ℕ)
    (perm : ℕ → List ℕ) (collisions : List Collision) (fuel : ℕ)
    (vars : List ℚ) (B : Body) (hB : B.mass = none)
    (hdisj : ∀ c ∈ collisions, ∀ i ∈ writeIdxs c, i ∉ bodyVarIdxs B) :
    (∀ imp v, handleCollisions strategy debug solver subsetFn perm collisions
        fuel vars = HCResult.ok imp v →
        ∀ i ∈ bodyVarIdxs B, v.getD i 0 = vars.getD i 0)
    ∧ (∀ v, handleCollisions strategy debug solver subsetFn perm collisions
        fuel vars = HCResult.thrown v →
        ∀ i ∈ bodyVarIdxs B, v.getD i 0 = vars.getD i 0) := by
  have hfr : ∀ i ∈ bodyVarIdxs B, ∀ c ∈ collisions, i ∉ writeIdxs c :=
    fun i hi c hc hwrite => hdisj c hc i hwrite hi
  unfold handleCollisions
  by_cases hemp : collisions.length = 0
  · rw [if_pos hemp]
    refine ⟨fun imp v hok => by simp at hok, fun v hthr => ?_⟩
    simp only [HCResult.thrown.injEq] at hthr
    intro i _
    rw [← hthr]
  · rw [if_neg hemp]
    cases strategy with
    | simultaneous =>
      exact ⟨fun imp v hok i hi =>
          (handleCollisionsSimultaneous_frame debug solver collisions vars i
            (hfr i hi)).1 imp v hok,
        fun v hthr i hi =>
          (handleCollisionsSimultaneous_frame debug solver collisions vars i
            (hfr i hi)).2 v hthr⟩
    | hybrid =>
      exact ⟨fun imp v hok i hi =>
          (handleCollisionsSerial_toHC_frame debug solver subsetFn perm collisions
            true none none none none fuel vars i (hfr i hi)).1 imp v hok,
        fun v hthr i hi =>
          (handleCollisionsSerial_toHC_frame debug solver subsetFn perm collisions
            true none none none none fuel vars i (hfr i hi)).2 v hthr⟩
    | serialSeparate =>
      exact ⟨fun imp v hok i hi =>
          (handleCollisionsSerial_toHC_frame debug solver subsetFn perm collisions
            false (some false) (some false) none none fuel vars i (hfr i hi)).1
            imp v hok,
        fun v hthr i hi =>
          (handleCollisionsSerial_toHC_frame debug solver subsetFn perm collisions
            false (some false) (some false) none none fuel vars i (hfr i hi)).2
            v hthr⟩
    | serialGrouped =>
      exact ⟨fun imp v hok i hi =>
          (handleCollisionsSerial_toHC_frame debug solver subsetFn perm collisions
            false (some true) (some false) none none fuel vars i (hfr i hi)).1
            imp v hok,
        fun v hthr i hi =>
          (handleCollisionsSerial_toHC_frame debug solver subsetFn perm collisions
            false (some true) (some false) none none fuel vars i (hfr i hi)).2
            v hthr⟩
    | serialSeparateLastPass =>
      exact ⟨fun imp v hok i hi =>
          (handleCollisionsSerial_toHC_frame debug solver subsetFn perm collisions
            false (some false) (some true) none none fuel vars i (hfr i hi)).1
            imp v hok,
        fun v hthr i hi =>
          (handleCollisionsSerial_toHC_frame debug solver subsetFn perm collisions
            false (some false) (some true) none none fuel vars i (hfr i hi)).2
            v hthr⟩
    | serialGroupedLastPass =>
      exact ⟨fun imp v hok i hi =>
          (handleCollisionsSerial_toHC_frame debug solver subsetFn perm collisions
            false (some true) (some true) none none fuel vars i (hfr i hi)).1
            imp v hok,
        fun v hthr i hi =>
          (handleCollisionsSerial_toHC_frame debug solver subsetFn perm collisions
            false (some true) (some true) none none fuel vars i (hfr i hi)).2
            v hthr⟩

/-- Finite-mass disk with variable block at offset 0, for the C6 witness. -/
def bodyW1v : Body := ⟨4, some 2, 1, some 0⟩

/-- Infinite-mass wall with variable block at offset 6, for the C6 witness. -/
def bodyW6 : Body := ⟨3, none, 1, some 6⟩

/-- Disk-against-wall contact for the C6 witness. -/
def cW6 : Collision :=
  ⟨bodyW1v, bodyW6, ⟨0, 0⟩, ⟨0, 0⟩, ⟨1, 0⟩, -1, 0, false, false⟩

/-- Witness for C6: a concrete simultaneous run against an infinite-mass wall
leaves the wall's velocity variables untouched. -/
theorem handleCollisions_infiniteMass_witness :
    (bodyW6.mass = none)
    ∧ (∀ c ∈ [cW6], ∀ i ∈ writeIdxs c, i ∉ bodyVarIdxs bodyW6)
    ∧ ((List.replicate 12 (0:ℚ)).set 1 (1/2)).getD 7 0
        = (List.replicate 12 (0:ℚ)).getD 7 0 := by
  refine ⟨rfl, by decide, ?_⟩
  have hrun : handleCollisions Strategy.simultaneous false
      (fun _ _ _ _ => ([1], -1)) (fun _ _ _ => []) (fun _ => []) [cW6] 1
      (List.replicate 12 (0:ℚ))
      = HCResult.ok true ((List.replicate 12 (0:ℚ)).set 1 (1/2)) := by
    norm_num [handleCollisions, handleCollisionsSimultaneous, simultaneousB,
      makeCollisionMatrix, collisionMatrixEntry, influence, influenceJ,
      influenceVal, applyLoop, applyImpulse, applyImpulseBody, cW6, bodyW1v,
      bodyW6, TINY_IMPULSE, VX_, VY_, VW_, List.replicate, checkForceAccel,
      vecAdd, matVec, dotList]
  exact (handleCollisions_infiniteMass Strategy.simultaneous false
    (fun _ _ _ _ => ([1], -1)) (fun _ _ _ => []) (fun _ => []) [cW6] 1
    (List.replicate 12 (0:ℚ)) bodyW6 rfl (by decide)).1 true
    ((List.replicate 12 (0:ℚ)).set 1 (1/2)) hrun 7 (by decide)

lemma serialLoop_invariant (debug hybrid grouped lastPass doPanic : Bool)
    (subsetFn : ℕ → List ℚ → ℚ → List ℕ) (solver : SolverFn)
    (perm : ℕ → List ℕ) (e : List ℚ) (joint : List Bool)
    (A : List (List ℚ)) (n : ℕ) (P : SerialState → Prop)
    (htick : ∀ s, P s → P (serialTick doPanic debug n s))
    (hhandle : ∀ focus s s2, P s →
      hcs_handle hybrid grouped subsetFn solver e joint A n focus s = some s2 →
      P s2) :
    ∀ (fuel : ℕ) (s : SerialState), P s →
      P ((serialLoop debug hybrid grouped lastPass doPanic subsetFn solver perm
          e joint A n fuel s).state) := by
  intro fuel
  induction fuel with
  | zero =>
    intro s hP
    exact hP
  | succ fuel ih =>
    intro s hP
    have hP1 := htick s hP
    simp only [serialLoop]
    split
    · exact hP1
    · cases hh : hcs_handle hybrid grouped subsetFn solver e joint A n
          (hcs_focus (serialTick doPanic debug n s).sv joint
            (serialTick doPanic debug n s).b
            (perm (serialTick doPanic debug n s).loopCtr))
          (serialTick doPanic debug n s) with
      | none => exact hP1
      | some s2 =>
        have hP2 := hhandle _ _ _ hP1 hh
        cases hf : hcs_focus (serialTick doPanic debug n s).sv joint
            (serialTick doPanic debug n s).b
            (perm (serialTick doPanic debug n s).loopCtr) with
        | none => exact hP2
        | some f => exact ih s2 hP2

lemma addAt_length (v : List ℚ) (i : ℕ) (x : ℚ) :
    (addAt v i x).length = v.length := by
  unfold addAt
  simp

lemma updateJ2_length (idx2 : List ℕ) (j1 j2 : List ℚ) :
    (updateJ2 idx2 j1 j2).length = j2.length := by
  unfold updateJ2
  generalize idx2.zip j1 = ps
  induction ps generalizing j2 with
  | nil => rfl
  | cons p ps ih =>
    rw [List.foldl_cons, ih]
    exact addAt_length j2 p.1 p.2

lemma updateB_length (A : List (List ℚ)) (idx2 : List ℕ) (j1 b : List ℚ) :
    (updateB A idx2 j1 b).length = min b.length A.length := by
  unfold updateB
  simp

lemma hcs_handle_fields (hybrid grouped : Bool)
    (subsetFn : ℕ → List ℚ → ℚ → List ℕ) (solver : SolverFn)
    (e : List ℚ) (joint : List Bool) (A : List (List ℚ)) (n : ℕ)
    (focus : Option ℕ) (s s2 : SerialState)
    (h : hcs_handle hybrid grouped subsetFn solver e joint A n focus s
      = some s2) :
    s2.j2.length = s.j2.length ∧ s2.b.length = min s.b.length A.length
    ∧ s2.sv = s.sv ∧ s2.loopCtr = s.loopCtr ∧ s2.diag = s.diag := by
  simp only [hcs_handle] at h
  split at h
  · exact absurd h (by simp)
  · simp only [Option.some.injEq] at h
    rw [← h]
    exact ⟨updateJ2_length _ _ _, updateB_length _ _ _ _, rfl, rfl, rfl⟩

lemma serialLoop_j2_length (debug hybrid grouped lastPass doPanic : Bool)
    (subsetFn : ℕ → List ℚ → ℚ → List ℕ) (solver : SolverFn)
    (perm : ℕ → List ℕ) (e : List ℚ) (joint : List Bool)
    (A : List (List ℚ)) (n : ℕ) (fuel : ℕ) (s : SerialState) :
    ((serialLoop debug hybrid grouped lastPass doPanic subsetFn solver perm
        e joint A n fuel s).state).j2.length = s.j2.length := by
  refine serialLoop_invariant debug hybrid grouped lastPass doPanic subsetFn
    solver perm e joint A n (fun t => t.j2.length = s.j2.length) ?_ ?_ fuel s rfl
  · intro t ht
    exact ht
  · intro focus t t2 ht hh
    exact ((hcs_handle_fields hybrid grouped subsetFn solver e joint A n focus
      t t2 hh).1).trans ht

lemma applyLoop_flag (cs : List Collision) (js : List ℚ) (imp0 : Bool)
    (vars : List ℚ) (hlen : js.length = cs.length) :
    ∀ b v, applyLoop cs js imp0 vars = Except.ok (b, v) →
      b = (imp0 || js.any (fun x => decide (x > TINY_IMPULSE))) := by
  induction cs generalizing js imp0 vars with
  | nil =>
    intro b v hok
    cases js with
    | nil =>
      simp only [applyLoop, Except.ok.injEq, Prod.mk.injEq] at hok
      rw [← hok.1]
      simp
    | cons j js => simp at hlen
  | cons c cs ih =>
    intro b v hok
    cases js with
    | nil => simp at hlen
    | cons j js =>
      simp only [applyLoop] at hok
      cases happ : applyImpulse c ((j :: js).getD 0 0) vars with
      | error u =>
        rw [happ] at hok
        simp at hok
      | ok p =>
        rw [happ] at hok
        obtain ⟨i0, vars1⟩ := p
        simp only at hok
        have hlen' : js.length = cs.length := by simpa using hlen
        have hres := ih js _ vars1 hlen' b v hok
        rw [hres]
        simp [Bool.or_assoc]

/-- C3 (amended): the serial handler returns true iff some cumulative impulse
`j2[i]` exceeds `TINY_IMPULSE`.  The non-joint condition of the claim only
gates the energy-sequence bump, not the return value. -/
theorem handleCollisionsSerial_return (debug : Bool) (solver : SolverFn)
    (subsetFn : ℕ → List ℚ → ℚ → List ℕ) (perm : ℕ → List ℕ)
    (collisions : List Collision) (hybrid : Bool)
    (groupedOpt lastPassOpt : Option Bool) (svOpt : Option ℚ)
    (doPanicOpt : Option Bool) (fuel : ℕ) (vars : List ℚ)
    (imp : Bool) (j2 v : List ℚ)
    (hok : handleCollisionsSerial debug solver subsetFn perm collisions hybrid
        groupedOpt lastPassOpt svOpt doPanicOpt fuel vars
      = SerialResult.ok imp j2 v) :
    imp = j2.any (fun x => decide (x > TINY_IMPULSE))
    ∧ (imp = true ↔ ∃ x ∈ j2, x > TINY_IMPULSE) := by
  simp only [handleCollisionsSerial] at hok
  generalize hsv : (match svOpt with
    | none => (1:ℚ)/100000
    | some v => if v = 0 then 1/100000 else v) = sv0 at hok
  cases hloop : serialLoop debug hybrid (groupedOpt.getD true)
      (lastPassOpt.getD true) (doPanicOpt.getD true) subsetFn solver perm
      (serialE (groupedOpt.getD true) collisions) (serialJoint collisions)
      (makeCollisionMatrix collisions) collisions.length fuel
      (serialInit collisions sv0) with
  | fuelOut s =>
    rw [hloop] at hok
    simp at hok
  | err s =>
    rw [hloop] at hok
    simp at hok
  | ok s =>
    rw [hloop] at hok
    dsimp only at hok
    have hlen : s.j2.length = collisions.length := by
      have h0 := serialLoop_j2_length debug hybrid (groupedOpt.getD true)
        (lastPassOpt.getD true) (doPanicOpt.getD true) subsetFn solver perm
        (serialE (groupedOpt.getD true) collisions) (serialJoint collisions)
        (makeCollisionMatrix collisions) collisions.length fuel
        (serialInit collisions sv0)
      rw [hloop] at h0
      simpa [serialInit, SerialOutcome.state] using h0
    cases happ : applyLoop collisions s.j2 false vars with
    | error u =>
      rw [happ] at hok
      simp at hok
    | ok p =>
      obtain ⟨b0, v0⟩ := p
      rw [happ] at hok
      simp only [SerialResult.ok.injEq] at hok
      obtain ⟨h1, h2, h3⟩ := hok
      have hflag := applyLoop_flag collisions s.j2 false vars hlen b0 v0 happ
      constructor
      · rw [← h1, ← h2, hflag]
        simp
      · rw [← h1, hflag, ← h2]
        simp [List.any_eq_true]

lemma serialLoop_step_continue (debug hybrid grouped lastPass doPanic : Bool)
    (subsetFn : ℕ → List ℚ → ℚ → List ℕ) (solver : SolverFn)
    (perm : ℕ → List ℕ) (e : List ℚ) (joint : List Bool)
    (A : List (List ℚ)) (n : ℕ) (fuel : ℕ) (s s1 s2 : SerialState) (f : ℕ)
    (ht : serialTick doPanic debug n s = s1)
    (hf : hcs_focus s1.sv joint s1.b (perm s1.loopCtr) = some f)
    (hh : hcs_handle hybrid grouped subsetFn solver e joint A n (some f) s1
      = some s2) :
    serialLoop debug hybrid grouped lastPass doPanic subsetFn solver perm
        e joint A n (fuel + 1) s
      = serialLoop debug hybrid grouped lastPass doPanic subsetFn solver perm
          e joint A n fuel s2 := by
  simp only [serialLoop, ht, hf, hh]
  simp

lemma serialLoop_step_exit (debug hybrid grouped doPanic : Bool)
    (subsetFn : ℕ → List ℚ → ℚ → List ℕ) (solver : SolverFn)
    (perm : ℕ → List ℕ) (e : List ℚ) (joint : List Bool)
    (A : List (List ℚ)) (n : ℕ) (fuel : ℕ) (s s1 : SerialState)
    (ht : serialTick doPanic debug n s = s1)
    (hf : hcs_focus s1.sv joint s1.b (perm s1.loopCtr) = none) :
    serialLoop debug hybrid grouped false doPanic subsetFn solver perm
        e joint A n (fuel + 1) s
      = SerialOutcome.ok s1 := by
  simp only [serialLoop, ht, hf]
  simp

lemma serialLoop_step_lastPass (debug hybrid grouped doPanic : Bool)
    (subsetFn : ℕ → List ℚ → ℚ → List ℕ) (solver : SolverFn)
    (perm : ℕ → List ℕ) (e : List ℚ) (joint : List Bool)
    (A : List (List ℚ)) (n : ℕ) (fuel : ℕ) (s s1 s2 : SerialState)
    (ht : serialTick doPanic debug n s = s1)
    (hf : hcs_focus s1.sv joint s1.b (perm s1.loopCtr) = none)
    (hh : hcs_handle hybrid grouped subsetFn solver e joint A n none s1
      = some s2) :
    serialLoop debug hybrid grouped true doPanic subsetFn solver perm
        e joint A n (fuel + 1) s
      = SerialOutcome.ok s2 := by
  simp only [serialLoop, ht, hf, hh]
  simp

/-- Joint contact between a unit-mass body and an infinite-mass body, used for
the C3 counterexample: the whole contact list consists of joints. -/
def cC3x : Collision :=
  ⟨⟨0, some 1, 1, none⟩, ⟨1, none, 1, none⟩, ⟨0, 0⟩, ⟨0, 0⟩, ⟨1, 0⟩, -1, 0,
    true, true⟩

/-- Solver used in concrete serial runs: reports success and returns the
negated right-hand side (the exact impulse when the subsystem matrix is the
1x1 identity). -/
def solverC3 : SolverFn := fun _ _ b1 _ => (b1.map (fun x => -x), -1)

/-- Permutation stream for single-contact runs: always the ordering [0]. -/
def permOne : ℕ → List ℕ := fun _ => [0]

/-- Trivial stand-in for subsetCollisions2 (never consulted in separate-mode
runs). -/
def subsetTrivial : ℕ → List ℚ → ℚ → List ℕ := fun _ _ _ => []

lemma serialC3_run :
    handleCollisionsSerial false solverC3 subsetTrivial permOne [cC3x] false
        (some false) (some false) none none 3 []
      = SerialResult.ok true [1] [] := by
  have hA : makeCollisionMatrix [cC3x] = [[1]] := by
    norm_num [makeCollisionMatrix, collisionMatrixEntry, influence, influenceJ,
      influenceVal, cC3x]
  have hE : serialE false [cC3x] = [0] := by
    norm_num [serialE, cC3x]
  have hJ : serialJoint [cC3x] = [true] := by
    norm_num [serialJoint, cC3x]
  have hI : serialInit [cC3x] (1/100000)
      = SerialState.mk [-1] [0] (1/100000) 20 0 false [] := by
    norm_num [serialInit, cC3x]
  have ht1 : serialTick true false 1 (SerialState.mk [-1] [0] (1/100000) 20 0 false [])
      = SerialState.mk [-1] [0] (1/100000) 20 1 false [] := by
    norm_num [serialTick, LOOP_LIMIT]
  have hf1 : hcs_focus (1/100000) [true] [-1] (permOne 1) = some 0 := by
    norm_num [hcs_focus, permOne]
  have hh1 : hcs_handle false false subsetTrivial solverC3 [0] [true] [[1]] 1
      (some 0) (SerialState.mk [-1] [0] (1/100000) 20 1 false [])
      = some (SerialState.mk [0] [1] (1/100000) 20 1 false
          [SolverCall.mk [[1]] [-1] [true] [1] (-1)]) := by
    norm_num [hcs_handle, hcs_set, setPositions, subVector, subBools, subMatrix,
      updateB, updateJ2, addAt, dotList, vecAdd, matVec, checkForceAccel,
      solverC3, subsetTrivial, List.range_succ, List.filter_append]
  have ht2 : serialTick true false 1
      (SerialState.mk [0] [1] (1/100000) 20 1 false
        [SolverCall.mk [[1]] [-1] [true] [1] (-1)])
      = SerialState.mk [0] [1] (1/100000) 20 2 false
          [SolverCall.mk [[1]] [-1] [true] [1] (-1)] := by
    norm_num [serialTick, LOOP_LIMIT]
  have hf2 : hcs_focus (1/100000) [true] [0] (permOne 2) = none := by
    norm_num [hcs_focus, permOne]
  have hloop : serialLoop false false false false true subsetTrivial solverC3
      permOne [0] [true] [[1]] 1 3 (SerialState.mk [-1] [0] (1/100000) 20 0 false [])
      = SerialOutcome.ok (SerialState.mk [0] [1] (1/100000) 20 2 false
          [SolverCall.mk [[1]] [-1] [true] [1] (-1)]) := by
    show serialLoop false false false false true subsetTrivial solverC3
      permOne [0] [true] [[1]] 1 (2 + 1)
      (SerialState.mk [-1] [0] (1/100000) 20 0 false []) = _
    rw [serialLoop_step_continue false false false false true subsetTrivial
      solverC3 permOne [0] [true] [[1]] 1 2 _ _ _ 0 ht1 hf1 hh1]
    show serialLoop false false false false true subsetTrivial solverC3
      permOne [0] [true] [[1]] 1 (1 + 1) _ = _
    rw [serialLoop_step_exit false false false true subsetTrivial solverC3
      permOne [0] [true] [[1]] 1 1 _ _ ht2 hf2]
  have happ : applyLoop [cC3x] [1] false [] = Except.ok (true, []) := by
    norm_num [applyLoop, applyImpulse, applyImpulseBody, cC3x, TINY_IMPULSE]
  simp only [handleCollisionsSerial, Option.getD, hE, hJ, hA, hI,
    List.length_singleton]
  rw [hloop]
  dsimp only
  rw [happ]

/-- Counterexample to C3 as stated: a run of the serial handler on an
all-joint contact list returns true (a joint received cumulative impulse 1),
although the claim requires a non-joint contact for a true return. -/
theorem serialReturn_counterexample :
    handleCollisionsSerial false solverC3 subsetTrivial permOne [cC3x] false
        (some false) (some false) none none 3 []
      = SerialResult.ok true [1] []
    ∧ (∀ c ∈ [cC3x], c.joint = true) :=
  ⟨serialC3_run, by decide⟩

/-- Witness for the amended C3 at the same concrete run. -/
theorem handleCollisionsSerial_return_witness :
    true = ([(1:ℚ)].any (fun x => decide (x > TINY_IMPULSE)))
    ∧ (true = true ↔ ∃ x ∈ [(1:ℚ)], x > TINY_IMPULSE) :=
  handleCollisionsSerial_return false solverC3 subsetTrivial permOne [cC3x]
    false (some false) (some false) none none 3 [] true [1] [] serialC3_run

lemma map_getD_range {α : Type} (v : List α) (d : α) :
    (List.range v.length).map (fun i => v.getD i d) = v := by
  apply List.ext_getElem
  · simp
  · intro i h1 h2
    simp only [List.getElem_map, List.getElem_range]
    rw [List.getD_eq_getElem v d h2]

lemma setPositions_replicate (n : ℕ) :
    setPositions (List.replicate n true) n = List.range n := by
  unfold setPositions
  apply List.filter_eq_self.mpr
  intro k hk
  rw [List.mem_range] at hk
  simp [List.getD, List.getElem?_replicate, hk]

lemma subVector_full (v : List ℚ) : subVector v (List.range v.length) = v :=
  map_getD_range v 0

lemma subBools_full (v : List Bool) : subBools v (List.range v.length) = v :=
  map_getD_range v false

lemma subMatrix_full (A : List (List ℚ)) (n : ℕ) (hA : A.length = n)
    (hrows : ∀ row ∈ A, row.length = n) :
    subMatrix A (List.range n) = A := by
  unfold subMatrix
  rw [← hA]
  apply List.ext_getElem
  · simp
  · intro i h1 h2
    simp only [List.getElem_map, List.getElem_range]
    rw [List.getD_eq_getElem A [] h2]
    have hrow : A[i].length = A.length := by
      rw [hA]
      exact hrows A[i] (A.getElem_mem h2)
    calc subVector A[i] (List.range A.length)
        = subVector A[i] (List.range A[i].length) := by rw [hrow]
      _ = A[i] := subVector_full A[i]

lemma serialJoint_length (collisions : List Collision) :
    (serialJoint collisions).length = collisions.length := by
  unfold serialJoint
  simp

lemma serialE_length (grouped : Bool) (collisions : List Collision) :
    (serialE grouped collisions).length = collisions.length := by
  unfold serialE
  simp

lemma makeCollisionMatrix_length (collisions : List Collision) :
    (makeCollisionMatrix collisions).length = collisions.length := by
  unfold makeCollisionMatrix
  simp

lemma makeCollisionMatrix_rows (collisions : List Collision) :
    ∀ row ∈ makeCollisionMatrix collisions, row.length = collisions.length := by
  intro row hr
  unfold makeCollisionMatrix at hr
  rw [List.mem_map] at hr
  obtain ⟨ci, _, hrow⟩ := hr
  rw [← hrow]
  simp

lemma updateB_getD (A : List (List ℚ)) (idx2 : List ℕ) (j1 b : List ℚ)
    (i : ℕ) (hib : i < b.length) (hiA : i < A.length) :
    (updateB A idx2 j1 b).getD i 0
      = b.getD i 0 + dotList (subVector (A.getD i []) idx2) j1 := by
  unfold updateB
  rw [List.getD_eq_getElem _ 0 (by simp; omega)]
  rw [List.getElem_zipWith]
  rw [List.getD_eq_getElem b 0 hib, List.getD_eq_getElem A [] hiA]

lemma hcs_handle_lastPass (hybrid grouped : Bool)
    (subsetFn : ℕ → List ℚ → ℚ → List ℕ) (solver : SolverFn)
    (e : List ℚ) (joint : List Bool) (A : List (List ℚ)) (n : ℕ)
    (s s2 : SerialState) (hblen : s.b.length = n) (hjlen : joint.length = n)
    (hAlen : A.length = n) (hArows : ∀ row ∈ A, row.length = n)
    (hh : hcs_handle hybrid grouped subsetFn solver e joint A n none s
      = some s2) :
    SolverCall.mk A s.b joint (solver s.loopCtr A s.b joint).1
        (solver s.loopCtr A s.b joint).2 ∈ s2.trace
    ∧ ∀ i < n, s2.b.getD i 0
        = s.b.getD i 0 + dotList (A.getD i []) (solver s.loopCtr A s.b joint).1 := by
  have hset : hcs_set hybrid grouped subsetFn n none s.b s.sv
      = List.replicate n true := rfl
  have hpos : setPositions (hcs_set hybrid grouped subsetFn n none s.b s.sv) n
      = List.range n := by
    rw [hset]
    exact setPositions_replicate n
  have hb1 : subVector s.b (List.range n) = s.b := by
    rw [← hblen]
    exact subVector_full s.b
  have hjoint1 : subBools joint (List.range n) = joint := by
    rw [← hjlen]
    exact subBools_full joint
  have hA1 : subMatrix A (List.range n) = A := subMatrix_full A n hAlen hArows
  simp only [hcs_handle, hpos, hb1, hjoint1, hA1] at hh
  split at hh
  · exact absurd hh (by simp)
  · simp only [Option.some.injEq] at hh
    rw [← hh]
    refine ⟨by simp, ?_⟩
    intro i hi
    rw [updateB_getD A (List.range n) _ s.b i (by omega) (by omega)]
    have hrow : (A.getD i []).length = n := by
      rw [List.getD_eq_getElem A [] (by omega)]
      exact hArows _ (A.getElem_mem (by omega))
    rw [show subVector (A.getD i []) (List.range n)
        = subVector (A.getD i []) (List.range (A.getD i []).length) by rw [hrow],
      subVector_full]

lemma serialTick_b (doPanic debug : Bool) (n : ℕ) (s : SerialState) :
    (serialTick doPanic debug n s).b = s.b := rfl

lemma serialTick_sv_pos (doPanic debug : Bool) (n : ℕ) (s : SerialState)
    (h : 0 < s.sv) : 0 < (serialTick doPanic debug n s).sv := by
  unfold serialTick
  dsimp only
  split
  · linarith
  · exact h

/-- Modelled from the spec: the LCP solver contract (section 4.3) for one
recorded call.  A call meeting the contract reports full success (-1) and
returns impulses whose residual `A1*j1 + b1` vanishes on joint rows and is
nonnegative, with nonnegative impulse, on non-joint rows. -/
def solverCallMeetsContract (call : SolverCall) : Prop :=
  call.error = -1 ∧
    ∀ i < call.joint1.length,
      (call.joint1.getD i false = true →
        dotList (call.A1.getD i []) call.j1 + call.b1.getD i 0 = 0)
      ∧ (call.joint1.getD i false = false →
        0 ≤ call.j1.getD i 0
        ∧ 0 ≤ dotList (call.A1.getD i []) call.j1 + call.b1.getD i 0)

/-- C1 (amended): for every run of the serial handler's iteration loop that
exits normally, with a permutation stream covering every contact and a solver
meeting its contract on every recorded call, at exit every unilateral contact
satisfies `b[i] >= -eps_v` and every joint `|b[i]| <= eps_v`, where `eps_v` is
the small-velocity tolerance in effect at exit (after panic relaxation).  The
source guarantees only the non-strict inequalities: the focus test uses strict
comparison, so `b[i] = -eps_v` exactly is already quiet. -/
theorem serialLoop_exit_velocities (debug hybrid grouped lastPass doPanic : Bool)
    (subsetFn : ℕ → List ℚ → ℚ → List ℕ) (solver : SolverFn)
    (perm : ℕ → List ℕ) (collisions : List Collision) (fuel : ℕ)
    (s s' : SerialState)
    (hperm : ∀ t i, i < collisions.length → i ∈ perm t)
    (hsv : 0 < s.sv) (hblen : s.b.length = collisions.length)
    (hrun : serialLoop debug hybrid grouped lastPass doPanic subsetFn solver
        perm (serialE grouped collisions) (serialJoint collisions)
        (makeCollisionMatrix collisions) collisions.length fuel s
      = SerialOutcome.ok s')
    (hsolver : ∀ call ∈ s'.trace, solverCallMeetsContract call) :
    ∀ i < collisions.length,
      ((serialJoint collisions).getD i false = false → -s'.sv ≤ s'.b.getD i 0)
      ∧ ((serialJoint collisions).getD i false = true →
          |s'.b.getD i 0| ≤ s'.sv) := by
  induction fuel generalizing s with
  | zero => simp [serialLoop] at hrun
  | succ fuel ih =>
    simp only [serialLoop] at hrun
    have hsv1 : 0 < (serialTick doPanic debug collisions.length s).sv :=
      serialTick_sv_pos doPanic debug collisions.length s hsv
    have hblen1 : (serialTick doPanic debug collisions.length s).b.length
        = collisions.length := by
      rw [serialTick_b]
      exact hblen
    by_cases hif : hcs_focus (serialTick doPanic debug collisions.length s).sv
        (serialJoint collisions) (serialTick doPanic debug collisions.length s).b
        (perm (serialTick doPanic debug collisions.length s).loopCtr) = none
        ∧ lastPass = false
    · rw [if_pos hif] at hrun
      simp only [SerialOutcome.ok.injEq] at hrun
      obtain ⟨hfo, _⟩ := hif
      unfold hcs_focus at hfo
      intro i hi
      have hnone := List.find?_eq_none.mp hfo i
        (hperm (serialTick doPanic debug collisions.length s).loopCtr i hi)
      rw [← hrun]
      constructor
      · intro hj
        by_contra hlt
        push_neg at hlt
        refine hnone ?_
        simp only [Bool.or_eq_true, Bool.and_eq_true, Bool.not_eq_true',
          decide_eq_true_eq]
        exact Or.inl ⟨hj, hlt⟩
      · intro hj
        by_contra habs
        push_neg at habs
        refine hnone ?_
        simp only [Bool.or_eq_true, Bool.and_eq_true, Bool.not_eq_true',
          decide_eq_true_eq]
        exact Or.inr ⟨hj, habs⟩
    · rw [if_neg hif] at hrun
      cases hhh : hcs_handle hybrid grouped subsetFn solver
          (serialE grouped collisions) (serialJoint collisions)
          (makeCollisionMatrix collisions) collisions.length
          (hcs_focus (serialTick doPanic debug collisions.length s).sv
            (serialJoint collisions)
            (serialTick doPanic debug collisions.length s).b
            (perm (serialTick doPanic debug collisions.length s).loopCtr))
          (serialTick doPanic debug collisions.length s) with
      | none =>
        rw [hhh] at hrun
        simp at hrun
      | some s2 =>
        rw [hhh] at hrun
        have hfields := hcs_handle_fields hybrid grouped subsetFn solver
          (serialE grouped collisions) (serialJoint collisions)
          (makeCollisionMatrix collisions) collisions.length _ _ _ hhh
        have hblen2 : s2.b.length = collisions.length := by
          rw [hfields.2.1, hblen1, makeCollisionMatrix_length]
          simp
        have hsv2 : 0 < s2.sv := by
          rw [hfields.2.2.1]
          exact hsv1
        cases hfo : hcs_focus (serialTick doPanic debug collisions.length s).sv
            (serialJoint collisions)
            (serialTick doPanic debug collisions.length s).b
            (perm (serialTick doPanic debug collisions.length s).loopCtr) with
        | none =>
          rw [hfo] at hrun
          dsimp only at hrun
          simp only [SerialOutcome.ok.injEq] at hrun
          rw [hfo] at hhh
          obtain ⟨hcall, hbeq⟩ := hcs_handle_lastPass hybrid grouped subsetFn
            solver (serialE grouped collisions) (serialJoint collisions)
            (makeCollisionMatrix collisions) collisions.length _ _ hblen1
            (serialJoint_length collisions) (makeCollisionMatrix_length collisions)
            (makeCollisionMatrix_rows collisions) hhh
          rw [hrun] at hcall
          have hcontract := hsolver _ hcall
          intro i hi
          have hconc := hcontract.2 i (by rw [serialJoint_length]; exact hi)
          rw [← hrun]
          constructor
          · intro hj
            have h0 := (hconc.2 hj).2
            have hbe := hbeq i hi
            rw [hbe]
            linarith
          · intro hj
            have h0 := hconc.1 hj
            have hbe := hbeq i hi
            rw [hbe, hfields.2.2.1]
            have : s2.b.getD i 0 = 0 := by
              rw [hbe] at *
              linarith
            rw [show (serialTick doPanic debug collisions.length s).b.getD i 0
                + dotList ((makeCollisionMatrix collisions).getD i [])
                  (solver (serialTick doPanic debug collisions.length s).loopCtr
                    (makeCollisionMatrix collisions)
                    (serialTick doPanic debug collisions.length s).b
                    (serialJoint collisions)).1 = 0 by linarith]
            simpa using le_of_lt hsv1
        | some f =>
          rw [hfo] at hrun
          dsimp only at hrun
          exact ih s2 hsv2 hblen2 hrun

/-- Unilateral contact whose approach speed equals the default tolerance
exactly, for the C1 counterexample. -/
def cC1 : Collision :=
  ⟨⟨0, some 1, 1, none⟩, ⟨1, none, 1, none⟩, ⟨0, 0⟩, ⟨0, 0⟩, ⟨1, 0⟩,
    -(1/100000), 0, false, false⟩

/-- Loop state at exit of the C1 boundary run. -/
def stateC1 : SerialState :=
  SerialState.mk [-(1/100000)] [0] (1/100000) 20 1 false []

lemma serialC1_run :
    serialLoop false false false false true subsetTrivial solverC3 permOne
        (serialE false [cC1]) (serialJoint [cC1]) (makeCollisionMatrix [cC1])
        1 2 (serialInit [cC1] (1/100000))
      = SerialOutcome.ok stateC1 := by
  have hE : serialE false [cC1] = [0] := by
    norm_num [serialE, cC1]
  have hJ : serialJoint [cC1] = [false] := by
    norm_num [serialJoint, cC1]
  have hA : makeCollisionMatrix [cC1] = [[1]] := by
    norm_num [makeCollisionMatrix, collisionMatrixEntry, influence, influenceJ,
      influenceVal, cC1]
  have hI : serialInit [cC1] (1/100000)
      = SerialState.mk [-(1/100000)] [0] (1/100000) 20 0 false [] := by
    norm_num [serialInit, cC1]
  have ht : serialTick true false 1
      (SerialState.mk [-(1/100000)] [0] (1/100000) 20 0 false []) = stateC1 := by
    norm_num [serialTick, stateC1, LOOP_LIMIT]
  have hf : hcs_focus stateC1.sv [false] stateC1.b (permOne stateC1.loopCtr)
      = none := by
    norm_num [hcs_focus, permOne, stateC1]
  rw [hE, hJ, hA, hI]
  show serialLoop false false false false true subsetTrivial solverC3 permOne
      [0] [false] [[1]] 1 (1 + 1)
      (SerialState.mk [-(1/100000)] [0] (1/100000) 20 0 false []) = _
  rw [serialLoop_step_exit false false false true subsetTrivial solverC3
    permOne [0] [false] [[1]] 1 1 _ _ ht hf]

/-- Counterexample to C1 as stated: a serial run (no last pass) exits the
loop with a unilateral contact at tracked velocity exactly `-eps_v`; the
claimed strict bound `b[i] > -eps_v` fails there (the code guarantees only
`b[i] >= -eps_v`). -/
theorem serialLoop_strict_counterexample :
    serialLoop false false false false true subsetTrivial solverC3 permOne
        (serialE false [cC1]) (serialJoint [cC1]) (makeCollisionMatrix [cC1])
        1 2 (serialInit [cC1] (1/100000))
      = SerialOutcome.ok stateC1
    ∧ (serialJoint [cC1]).getD 0 false = false
    ∧ ¬(-stateC1.sv < stateC1.b.getD 0 0) := by
  refine ⟨serialC1_run, rfl, ?_⟩
  norm_num [stateC1]

/-- Witness for the amended C1 at the concrete boundary run. -/
theorem serialLoop_exit_velocities_witness :
    (0 : ℚ) < (serialInit [cC1] (1/100000)).sv
    ∧ (((serialJoint [cC1]).getD 0 false = false →
          -stateC1.sv ≤ stateC1.b.getD 0 0)
       ∧ ((serialJoint [cC1]).getD 0 false = true →
          |stateC1.b.getD 0 0| ≤ stateC1.sv)) := by
  refine ⟨by norm_num [serialInit], ?_⟩
  refine serialLoop_exit_velocities false false false false true subsetTrivial
    solverC3 permOne [cC1] 2 (serialInit [cC1] (1/100000)) stateC1
    ?_ (by norm_num [serialInit]) (by norm_num [serialInit, cC1])
    serialC1_run ?_ 0 (by norm_num)
  · intro t i hi
    have : i = 0 := by
      simpa using Nat.lt_one_iff.mp hi
    rw [this]
    simp [permOne]
  · intro call hc
    simp [stateC1] at hc

lemma serialTick_loopCtr (doPanic debug : Bool) (n : ℕ) (s : SerialState) :
    (serialTick doPanic debug n s).loopCtr = s.loopCtr + 1 := rfl

lemma serialTick_diag (doPanic debug : Bool) (n : ℕ) (s : SerialState) :
    (serialTick doPanic debug n s).diag
      = (s.diag || (debug && decide (s.loopCtr + 1 > LOOP_LIMIT))) := rfl

/-- C8 (amended): the absolute ceiling `LOOP_LIMIT = 100000` does not bound
the serial loop and never makes it fail: a run that is still busy after
`fuel` iterations has advanced the counter by exactly `fuel`, whatever its
relation to the ceiling; the only effect of exceeding the ceiling is that, in
debug builds, the diagnostic flag is set (console logging) while iteration
continues. -/
theorem serialLoop_ceiling (debug hybrid grouped lastPass doPanic : Bool)
    (subsetFn : ℕ → List ℚ → ℚ → List ℕ) (solver : SolverFn)
    (perm : ℕ → List ℕ) (e : List ℚ) (joint : List Bool)
    (A : List (List ℚ)) (n : ℕ) (fuel : ℕ) (s s' : SerialState)
    (hinv : debug = true → LOOP_LIMIT < s.loopCtr → s.diag = true)
    (hrun : serialLoop debug hybrid grouped lastPass doPanic subsetFn solver
        perm e joint A n fuel s = SerialOutcome.fuelOut s') :
    s'.loopCtr = s.loopCtr + fuel
    ∧ (debug = true → LOOP_LIMIT < s'.loopCtr → s'.diag = true) := by
  induction fuel generalizing s with
  | zero =>
    simp only [serialLoop, SerialOutcome.fuelOut.injEq] at hrun
    subst hrun
    exact ⟨rfl, hinv⟩
  | succ fuel ih =>
    simp only [serialLoop] at hrun
    by_cases hif : hcs_focus (serialTick doPanic debug n s).sv joint
        (serialTick doPanic debug n s).b
        (perm (serialTick doPanic debug n s).loopCtr) = none
        ∧ lastPass = false
    · rw [if_pos hif] at hrun
      simp at hrun
    · rw [if_neg hif] at hrun
      cases hhh : hcs_handle hybrid grouped subsetFn solver e joint A n
          (hcs_focus (serialTick doPanic debug n s).sv joint
            (serialTick doPanic debug n s).b
            (perm (serialTick doPanic debug n s).loopCtr))
          (serialTick doPanic debug n s) with
      | none =>
        rw [hhh] at hrun
        simp at hrun
      | some s2 =>
        rw [hhh] at hrun
        cases hfo : hcs_focus (serialTick doPanic debug n s).sv joint
            (serialTick doPanic debug n s).b
            (perm (serialTick doPanic debug n s).loopCtr) with
        | none =>
          rw [hfo] at hrun
          simp at hrun
        | some f =>
          rw [hfo] at hrun
          dsimp only at hrun
          have hfields := hcs_handle_fields hybrid grouped subsetFn solver
            e joint A n _ _ _ hhh
          have hctr2 : s2.loopCtr = s.loopCtr + 1 := by
            rw [hfields.2.2.2.1, serialTick_loopCtr]
          have hinv2 : debug = true → LOOP_LIMIT < s2.loopCtr → s2.diag = true := by
            intro hd hl
            rw [hfields.2.2.2.2, serialTick_diag, hd]
            rw [hctr2] at hl
            simp [hl]
          have hres := ih s2 hinv2 hrun
          exact ⟨by rw [hres.1, hctr2]; omega, hres.2⟩

/-- Solver that reports failure (error code 0, a row index) and hands back
the right-hand side as the impulse vector.  Permitted by the specified solver
contract, which constrains only fully-successful (-1) calls; the residual
check does not examine non-joint rows with nonpositive force, so the serial
loop accepts these answers. -/
def solverC8 : SolverFn := fun _ _ b1 _ => (b1, 0)

/-- Unilateral contact (unit mass against an infinite-mass body, A = [[1]])
driving the unbounded C8 run. -/
def cC8 : Collision :=
  ⟨⟨0, some 1, 1, none⟩, ⟨1, none, 1, none⟩, ⟨0, 0⟩, ⟨0, 0⟩, ⟨1, 0⟩, -1, 0,
    false, false⟩

/-- Invariant of the C8 run: the single contact velocity doubles each
iteration and outruns the panic-relaxed tolerance forever; no diagnostic is
set in non-debug builds. -/
def C8Inv (s : SerialState) : Prop :=
  s.b = [-(2 ^ s.loopCtr : ℚ)] ∧ 0 < s.sv
  ∧ s.sv ≤ (2 : ℚ) ^ s.loopCtr / 50000 ∧ s.diag = false

lemma serialC8_core (fuel : ℕ) (s : SerialState) (sv1 : ℚ) (lp1 : ℕ)
    (hb : s.b = [-(2 ^ s.loopCtr : ℚ)]) (hdiag : s.diag = false)
    (ht : serialTick true false 1 s
      = SerialState.mk [-(2 ^ s.loopCtr : ℚ)] s.j2 sv1 lp1 (s.loopCtr + 1)
          s.diag s.trace)
    (hsv1pos : 0 < sv1) (hsv1le : sv1 ≤ (2 : ℚ) ^ (s.loopCtr + 1) / 50000) :
    ∃ s2 : SerialState,
      serialLoop false false false false true subsetTrivial solverC8 permOne
          [0] [false] [[1]] 1 (fuel + 1) s
        = serialLoop false false false false true subsetTrivial solverC8
            permOne [0] [false] [[1]] 1 fuel s2
      ∧ C8Inv s2 ∧ s2.loopCtr = s.loopCtr + 1 := by
  have hpow : (0 : ℚ) < 2 ^ s.loopCtr := by positivity
  have hsv1lt : sv1 < 2 ^ s.loopCtr := by
    rw [pow_succ] at hsv1le
    nlinarith
  have hflt : -(2 ^ s.loopCtr : ℚ) < -sv1 := by linarith
  have hf : hcs_focus sv1 [false] [-(2 ^ s.loopCtr : ℚ)]
      (permOne (s.loopCtr + 1)) = some 0 := by
    simp [hcs_focus, permOne, hflt]
  have hneg : ¬((0 : ℚ) < -(2 ^ s.loopCtr : ℚ) * (1 + 0)) := by
    simp
  have hsum : -(2 ^ s.loopCtr : ℚ) + -(2 ^ s.loopCtr : ℚ)
      = -(2 ^ (s.loopCtr + 1) : ℚ) := by
    rw [pow_succ]
    ring
  have hh : hcs_handle false false subsetTrivial solverC8 [0] [false] [[1]] 1
      (some 0)
      (SerialState.mk [-(2 ^ s.loopCtr : ℚ)] s.j2 sv1 lp1 (s.loopCtr + 1)
        s.diag s.trace)
      = some (SerialState.mk [-(2 ^ (s.loopCtr + 1) : ℚ)]
          (addAt s.j2 0 (-(2 ^ s.loopCtr : ℚ)))
          sv1 lp1 (s.loopCtr + 1) s.diag
          (s.trace ++ [SolverCall.mk [[1]] [-(2 ^ s.loopCtr : ℚ) * (1 + 0)]
            [false] [-(2 ^ s.loopCtr : ℚ) * (1 + 0)] 0])) := by
    simp only [hcs_handle, hcs_set, setPositions, subVector, subBools, subMatrix,
      updateB, updateJ2, addAt, dotList, vecAdd, matVec, checkForceAccel,
      solverC8, subsetTrivial, List.range_succ, List.range_zero,
      List.filter_append, List.nil_append]
    norm_num [hneg, hsum]
  refine ⟨_, serialLoop_step_continue false false false false true subsetTrivial
      solverC8 permOne [0] [false] [[1]] 1 fuel s _ _ 0 ht hf hh, ?_, rfl⟩
  exact ⟨rfl, hsv1pos, hsv1le, hdiag⟩

lemma serialC8_step (fuel : ℕ) (s : SerialState) (h : C8Inv s) :
    ∃ s2 : SerialState,
      serialLoop false false false false true subsetTrivial solverC8 permOne
          [0] [false] [[1]] 1 (fuel + 1) s
        = serialLoop false false false false true subsetTrivial solverC8
            permOne [0] [false] [[1]] 1 fuel s2
      ∧ C8Inv s2 ∧ s2.loopCtr = s.loopCtr + 1 := by
  obtain ⟨hb, hsv, hsvle, hdiag⟩ := h
  have hpow : (0 : ℚ) < 2 ^ s.loopCtr := by positivity
  by_cases hp : s.loopPanic < s.loopCtr + 1
  · refine serialC8_core fuel s (s.sv * 2) (s.loopPanic + 20 * 1) hb hdiag ?_
      (by linarith) (by rw [pow_succ]; linarith)
    unfold serialTick
    rw [← hb]
    simp [hp]
  · refine serialC8_core fuel s s.sv s.loopPanic hb hdiag ?_ hsv
      (by rw [pow_succ]; nlinarith)
    unfold serialTick
    rw [← hb]
    simp [hp]

lemma serialC8_loop (fuel : ℕ) :
    ∀ s : SerialState, C8Inv s →
      (serialLoop false false false false true subsetTrivial solverC8 permOne
          [0] [false] [[1]] 1 fuel s).isFuelOut = true
      ∧ ((serialLoop false false false false true subsetTrivial solverC8
          permOne [0] [false] [[1]] 1 fuel s).state).loopCtr = s.loopCtr + fuel
      ∧ ((serialLoop false false false false true subsetTrivial solverC8
          permOne [0] [false] [[1]] 1 fuel s).state).diag = false := by
  induction fuel with
  | zero =>
    intro s h
    exact ⟨rfl, rfl, h.2.2.2⟩
  | succ fuel ih =>
    intro s h
    obtain ⟨s2, hstep, hinv2, hctr⟩ := serialC8_step fuel s h
    rw [hstep]
    obtain ⟨h1, h2, h3⟩ := ih s2 hinv2
    refine ⟨h1, ?_, h3⟩
    rw [h2, hctr]
    omega

/-- Counterexample to C8 as stated: a serial run (non-debug build, contract-
permitted solver answers) that is still iterating after `LOOP_LIMIT + 1`
iterations, with no failure and no diagnostic surfaced: the ceiling neither
bounds the loop nor fails it. -/
theorem serialLoop_pastCeiling_counterexample :
    (serialLoop false false false false true subsetTrivial solverC8 permOne
        (serialE false [cC8]) (serialJoint [cC8]) (makeCollisionMatrix [cC8])
        1 (LOOP_LIMIT + 1) (serialInit [cC8] (1/100000))).isFuelOut = true
    ∧ ((serialLoop false false false false true subsetTrivial solverC8 permOne
        (serialE false [cC8]) (serialJoint [cC8]) (makeCollisionMatrix [cC8])
        1 (LOOP_LIMIT + 1) (serialInit [cC8] (1/100000))).state).loopCtr
      = LOOP_LIMIT + 1
    ∧ ((serialLoop false false false false true subsetTrivial solverC8 permOne
        (serialE false [cC8]) (serialJoint [cC8]) (makeCollisionMatrix [cC8])
        1 (LOOP_LIMIT + 1) (serialInit [cC8] (1/100000))).state).diag
      = false := by
  have hE : serialE false [cC8] = [0] := by
    norm_num [serialE, cC8]
  have hJ : serialJoint [cC8] = [false] := by
    norm_num [serialJoint, cC8]
  have hA : makeCollisionMatrix [cC8] = [[1]] := by
    norm_num [makeCollisionMatrix, collisionMatrixEntry, influence, influenceJ,
      influenceVal, cC8]
  have hI : serialInit [cC8] (1/100000)
      = SerialState.mk [-1] [0] (1/100000) 20 0 false [] := by
    norm_num [serialInit, cC8]
  have hInv0 : C8Inv (SerialState.mk [-1] [0] (1/100000) 20 0 false []) := by
    refine ⟨by norm_num, by norm_num, by norm_num, rfl⟩
  rw [hE, hJ, hA, hI]
  have hres := serialC8_loop (LOOP_LIMIT + 1)
    (SerialState.mk [-1] [0] (1/100000) 20 0 false []) hInv0
  exact ⟨hres.1, by rw [hres.2.1]; simp, hres.2.2⟩

/-- Debug-build state at the ceiling for the C8 witness. -/
def stateC8w0 : SerialState :=
  SerialState.mk [-1] [0] (1/100000) 2000001 100000 false []

/-- State after the tick in the C8 witness: the counter has passed the
ceiling and the diagnostic flag is set. -/
def stateC8w1 : SerialState :=
  SerialState.mk [-1] [0] (1/100000) 2000001 100001 true []

/-- State after the full iteration in the C8 witness. -/
def stateC8w2 : SerialState :=
  SerialState.mk [-2] [-1] (1/100000) 2000001 100001 true
    [SolverCall.mk [[1]] [-1] [false] [-1] 0]

lemma serialC8w_run :
    serialLoop true false false false true subsetTrivial solverC8 permOne
        [0] [false] [[1]] 1 1 stateC8w0
      = SerialOutcome.fuelOut stateC8w2 := by
  have ht : serialTick true true 1 stateC8w0 = stateC8w1 := by
    norm_num [serialTick, stateC8w0, stateC8w1, LOOP_LIMIT]
  have hf : hcs_focus stateC8w1.sv [false] stateC8w1.b
      (permOne stateC8w1.loopCtr) = some 0 := by
    norm_num [hcs_focus, permOne, stateC8w1]
  have hh : hcs_handle false false subsetTrivial solverC8 [0] [false] [[1]] 1
      (some 0) stateC8w1 = some stateC8w2 := by
    norm_num [hcs_handle, hcs_set, setPositions, subVector, subBools, subMatrix,
      updateB, updateJ2, addAt, dotList, vecAdd, matVec, checkForceAccel,
      solverC8, subsetTrivial, List.range_succ, List.filter_append,
      stateC8w1, stateC8w2]
  show serialLoop true false false false true subsetTrivial solverC8 permOne
      [0] [false] [[1]] 1 (0 + 1) stateC8w0 = _
  rw [serialLoop_step_continue true false false false true subsetTrivial
    solverC8 permOne [0] [false] [[1]] 1 0 _ _ _ 0 ht hf hh]
  rfl

/-- Witness for the amended C8: a debug-build iteration at the ceiling keeps
running (consumes its fuel) and carries the diagnostic flag. -/
theorem serialLoop_ceiling_witness :
    stateC8w2.loopCtr = stateC8w0.loopCtr + 1
    ∧ ((true : Bool) = true → LOOP_LIMIT < stateC8w2.loopCtr →
        stateC8w2.diag = true) :=
  serialLoop_ceiling true false false false true subsetTrivial solverC8 permOne
    [0] [false] [[1]] 1 1 stateC8w0 stateC8w2
    (by
      intro _ hl
      exact absurd hl (by norm_num [LOOP_LIMIT, stateC8w0]))
    serialC8w_run

end ImpulseSimSpec
